import Mathlib

/-!
Verification development for the TechVault demo repository: a shallow
embedding of the experiment-automation pipeline (contract validation,
source patcher, SaaS API clients, preflight validator) together with
theorems settling the specification's claims about it.

JavaScript/TypeScript string primitives (`includes`, `startsWith`,
`trim`, `split('\n')`, `join('\n')`) are modelled as executable
functions over `List Char`.
-/

namespace TechVault

/-- Model of JS `String.prototype.startsWith` on character lists:
`chStarts pat s` is true when `pat` is a prefix of `s`. -/
def chStarts : List Char → List Char → Bool
  | [], _ => true
  | _ :: _, [] => false
  | p :: ps, c :: cs => p == c && chStarts ps cs

/-- Model of JS `String.prototype.includes` on character lists:
`chContains pat s` is true when `pat` occurs contiguously in `s`. -/
def chContains : List Char → List Char → Bool
  | pat, [] => chStarts pat []
  | pat, c :: cs => chStarts pat (c :: cs) || chContains pat cs

/-- JS `s.includes(sub)`. -/
def jsIncludes (s sub : String) : Bool := chContains sub.data s.data

/-- JS `s.startsWith(pre)`. -/
def jsStartsWith (s pre : String) : Bool := chStarts pre.data s.data

/-- ASCII whitespace recognized by JS `trim` (the unicode cases are not
needed for any input in this repository). -/
def jsWhitespace (c : Char) : Bool :=
  c == ' ' || c == '\t' || c == '\n' || c == '\r'

/-- JS `s.trim()`. -/
def jsTrim (s : String) : String :=
  ⟨((s.data.dropWhile jsWhitespace).reverse.dropWhile jsWhitespace).reverse⟩

/-- Split a character list at every newline, JS `split('\n')` style:
the empty input yields one empty piece. -/
def chSplitNl : List Char → List (List Char)
  | [] => [[]]
  | c :: cs =>
    if c == '\n' then [] :: chSplitNl cs
    else
      match chSplitNl cs with
      | [] => [[c]]
      | l :: ls => (c :: l) :: ls

/-- JS `s.split('\n')`. -/
def jsSplitNl (s : String) : List String := (chSplitNl s.data).map (⟨·⟩)

/-- JS `Array.prototype.join(sep)`. -/
def jsJoin (sep : String) : List String → String
  | [] => ""
  | [x] => x
  | x :: y :: xs => x ++ sep ++ jsJoin sep (y :: xs)

/-- JS `Array.prototype.splice(idx, 0, x)`: insert `x` at index `idx`
(appends at the end when the index is past the end). -/
def jsInsertAt {α : Type} : List α → Nat → α → List α
  | l, 0, x => x :: l
  | [], _ + 1, x => [x]
  | c :: cs, n + 1, x => c :: jsInsertAt cs n x

end TechVault

namespace TechVault.CodeGen

/-!
Model of `dh25-demo-site/scripts/lib/code-generator.ts`
(`CodeGenerator`): the line-scanning source patcher.
-/

/-- `CodeGenerator.isTargetFunction`: the ordered list of recognized
function-declaration shapes, matched against the trimmed line. -/
def isTargetFunction (line functionName : String) : Bool :=
  let cleanLine := jsTrim line
  let patterns : List String := [
    "function " ++ functionName ++ "(",
    "const " ++ functionName ++ " = (",
    "const " ++ functionName ++ " = function",
    "export function " ++ functionName ++ "(",
    "export const " ++ functionName ++ " = (",
    "export default function " ++ functionName ++ "(",
    "export default const " ++ functionName ++ " = ("]
  patterns.any (fun pattern => jsStartsWith cleanLine pattern)

/-- The import line inserted by `generateModifiedCode`. -/
def statsigImportLine : String :=
  "import \x7b getExperiment, logExposure \x7d from '../lib/statsigClient';"

/-- `CodeGenerator.hasStatsigImport`. -/
def hasStatsigImport (content : String) : Bool :=
  jsIncludes content "from '../lib/statsigClient'" ||
  jsIncludes content "from \"../lib/statsigClient\""

/-- Inner `while` of `findImportInsertIndex`: number of consecutive
lines from here on that are import lines or blank. -/
def importSectionLen : List String → Nat
  | [] => 0
  | l :: ls =>
    if jsStartsWith (jsTrim l) "import " || jsTrim l == "" then
      1 + importSectionLen ls
    else 0

/-- Scanning loop of `CodeGenerator.findImportInsertIndex`: find the
first line that is an import of another module, then skip to the end of
the import section; `0` when there is none. -/
def findImportAux : List String → Nat → Nat
  | [], _ => 0
  | l :: ls, i =>
    if jsStartsWith (jsTrim l) "import " &&
        !(jsIncludes (jsTrim l) "from '../lib/statsigClient'") then
      i + importSectionLen (l :: ls)
    else findImportAux ls (i + 1)

/-- `CodeGenerator.findImportInsertIndex`. -/
def findImportInsertIndex (lines : List String) : Nat :=
  findImportAux lines 0

/-- `CodeGenerator.generateExperimentFunction`: the experiment-check
snippet appended to the matched declaration line. -/
def generateExperimentFunction (originalLine functionName experimentKey
    parameterName : String) : String :=
  let isAsync := jsIncludes originalLine "async"
  let fetchLine := "const experiment = await getExperiment('" ++ experimentKey ++ "');"
  originalLine ++ "\n" ++
  "  // Experiment: " ++ experimentKey ++ "\n" ++
  "  " ++ (if isAsync then "" else fetchLine) ++ "\n" ++
  "  " ++ (if isAsync then fetchLine else "") ++ "\n" ++
  "  const variant = experiment.variant;\n" ++
  "  \n" ++
  "  // Log exposure when user sees this experiment\n" ++
  "  await logExposure('" ++ experimentKey ++ "', variant, \x7b\n" ++
  "    component: '" ++ functionName ++ "',\n" ++
  "    parameter: '" ++ parameterName ++ "'\n" ++
  "  \x7d);\n" ++
  "  \n" ++
  "  // Use experiment parameter: " ++ parameterName ++ "\n" ++
  "  const " ++ parameterName ++ " = experiment.metadata?.config?." ++
    parameterName ++ " ?? false;\n" ++
  "  \n" ++
  "  // Original function logic continues..."

/-- Mutable state of the scanning loop in
`CodeGenerator.generateModifiedCode` (the source also assigns
`insertIndex` and `functionStartLine`, but never reads them again; they
are omitted as dead stores). -/
structure GenState where
  i : Nat
  lines : List String
  modifiedLines : List String
  inTargetFunction : Bool
  functionDepth : Int
  foundFunction : Bool
  deriving Repr, DecidableEq

/-- One iteration of the scanning loop of `generateModifiedCode`,
for loop index `s.i` (callers ensure `s.i < s.lines.length`). The
`splice` guard `importInsertIndex >= 0` of the source is always true
since `findImportInsertIndex` returns a `Nat`. -/
def genStep (originalContent functionName experimentKey parameterName : String)
    (s : GenState) : GenState :=
  let line := s.lines.getD s.i ""
  if isTargetFunction line functionName then
    let lines' :=
      if hasStatsigImport originalContent then s.lines
      else
        let idx := findImportInsertIndex s.lines
        jsInsertAt (jsInsertAt s.lines idx statsigImportLine) (idx + 1) ""
    { s with
      foundFunction := true
      inTargetFunction := true
      lines := lines'
      modifiedLines := s.modifiedLines ++
        [generateExperimentFunction line functionName experimentKey parameterName]
      i := s.i + 1 }
  else if s.inTargetFunction then
    let depth := s.functionDepth + (if jsIncludes line "\x7b" then 1 else 0)
      - (if jsIncludes line "\x7d" then 1 else 0)
    if depth == 0 then
      { s with
        functionDepth := depth
        modifiedLines := s.modifiedLines ++ [line]
        inTargetFunction := false
        i := s.i + 1 }
    else
      { s with
        functionDepth := depth
        modifiedLines := s.modifiedLines ++ [line]
        i := s.i + 1 }
  else
    { s with modifiedLines := s.modifiedLines ++ [line], i := s.i + 1 }

/-- Outcome of running `generateModifiedCode`: the produced file
content, the thrown not-found error, or failure to terminate within the
given number of loop iterations. -/
inductive GenOutcome where
  | ok (content : String)
  | err (msg : String)
  | outOfFuel
  deriving Repr, DecidableEq

/-- The scanning loop of `generateModifiedCode`, fuelled: the source's
`for` loop re-reads `lines.length` each iteration, so the loop is not
structurally bounded (and indeed need not terminate). -/
def genRun (originalContent functionName experimentKey parameterName : String) :
    Nat → GenState → GenOutcome
  | 0, _ => .outOfFuel
  | fuel + 1, s =>
    if s.i < s.lines.length then
      genRun originalContent functionName experimentKey parameterName fuel
        (genStep originalContent functionName experimentKey parameterName s)
    else if s.foundFunction then
      .ok (jsJoin "\n" s.modifiedLines)
    else
      .err ("Function/component '" ++ functionName ++ "' not found in file")

/-- `CodeGenerator.generateModifiedCode` (fuelled). -/
def generateModifiedCode (fuel : Nat) (originalContent functionName
    experimentKey parameterName : String) : GenOutcome :=
  genRun originalContent functionName experimentKey parameterName fuel
    { i := 0
      lines := jsSplitNl originalContent
      modifiedLines := []
      inTargetFunction := false
      functionDepth := 0
      foundFunction := false }

end TechVault.CodeGen


namespace TechVault.ContractSchema

/-!
Model of `contract-schema.ts`: the zod `ExperimentContractSchema` and
`validateContract`. Raw JSON input is modelled by `JValue`; each zod
schema becomes an issue-collecting parser. As in zod, parsing an object
collects the issues of every field (not just the first), `.refine`
predicates only run when the underlying parse succeeded, `.default`
fills absent fields and `.optional()` keeps them as `Option`. JS
numbers are modelled as `Int` (every numeric field in a contract is an
integer). Issue messages that zod generates internally (wrong type,
missing key) are abbreviated ("Expected string", "Required", ...); the
custom messages written in the schema are reproduced verbatim.
-/

/-- Raw JSON value (input to `validateContract`). -/
inductive JValue where
  | null
  | bool (b : Bool)
  | num (n : Int)
  | str (s : String)
  | arr (elems : List JValue)
  | obj (fields : List (String × JValue))

/-- One zod issue: field path and message. -/
structure ZIssue where
  path : List String
  message : String
  deriving Repr, DecidableEq

/-- Result of parsing one schema: a value, or the collected issues. -/
def ZRes (α : Type) : Type := Except (List ZIssue) α

/-- Combine two field results, collecting issues from both sides
(zod parses every field of an object and concatenates their issues). -/
def zip2 {α β : Type} : ZRes α → ZRes β → ZRes (α × β)
  | .ok a, .ok b => .ok (a, b)
  | .error e1, .error e2 => .error (e1 ++ e2)
  | .error e1, .ok _ => .error e1
  | .ok _, .error e2 => .error e2

/-- Map over a successful parse. -/
def zMap {α β : Type} (f : α → β) : ZRes α → ZRes β
  | .ok a => .ok (f a)
  | .error e => .error e

/-- Prefix every issue's path with the field key `k`. -/
def zAt {α : Type} (k : String) : ZRes α → ZRes α
  | .ok a => .ok a
  | .error e => .error (e.map (fun i => { i with path := k :: i.path }))

/-- Key lookup in a JSON object (JSON objects have unique keys; the
first binding wins). -/
def jLookup (fields : List (String × JValue)) (k : String) : Option JValue :=
  (fields.find? (fun p => p.1 == k)).map (·.2)

/-- `z.string().min(1, msg)` on a required field. -/
def pReqString (msg : String) : Option JValue → ZRes String
  | some (.str s) => if 1 ≤ s.length then .ok s else .error [⟨[], msg⟩]
  | some _ => .error [⟨[], "Expected string"⟩]
  | none => .error [⟨[], "Required"⟩]

/-- `z.string().optional()`. -/
def pOptString : Option JValue → ZRes (Option String)
  | none => .ok none
  | some (.str s) => .ok (some s)
  | some _ => .error [⟨[], "Expected string"⟩]

/-- `z.string().default(d)`. -/
def pDefString (d : String) : Option JValue → ZRes String
  | none => .ok d
  | some (.str s) => .ok s
  | some _ => .error [⟨[], "Expected string"⟩]

/-- `z.number().min(lo).max(hi)`. -/
def pNumMinMax (lo hi : Int) : JValue → ZRes Int
  | .num n =>
    if n < lo then
      .error [⟨[], "Number must be greater than or equal to " ++ toString lo⟩]
    else if hi < n then
      .error [⟨[], "Number must be less than or equal to " ++ toString hi⟩]
    else .ok n
  | _ => .error [⟨[], "Expected number"⟩]

/-- `z.number().min(lo).max(hi).default(d)`. -/
def pDefNumMinMax (lo hi d : Int) : Option JValue → ZRes Int
  | none => .ok d
  | some v => pNumMinMax lo hi v

/-- `z.number().default(d)` (no bounds). -/
def pDefNum (d : Int) : Option JValue → ZRes Int
  | none => .ok d
  | some (.num n) => .ok n
  | some _ => .error [⟨[], "Expected number"⟩]

/-- `z.number().optional()`. -/
def pOptNum : Option JValue → ZRes (Option Int)
  | none => .ok none
  | some (.num n) => .ok (some n)
  | some _ => .error [⟨[], "Expected number"⟩]

/-- `z.boolean().default(d)`. -/
def pDefBool (d : Bool) : Option JValue → ZRes Bool
  | none => .ok d
  | some (.bool b) => .ok b
  | some _ => .error [⟨[], "Expected boolean"⟩]

/-- `z.enum(vals)` on a required field. -/
def pReqEnum (vals : List String) : Option JValue → ZRes String
  | none => .error [⟨[], "Required"⟩]
  | some (.str s) =>
    if vals.contains s then .ok s else .error [⟨[], "Invalid enum value"⟩]
  | some _ => .error [⟨[], "Invalid enum value"⟩]

/-- `z.enum(vals).default(d)`. -/
def pDefEnum (vals : List String) (d : String) : Option JValue → ZRes String
  | none => .ok d
  | some (.str s) =>
    if vals.contains s then .ok s else .error [⟨[], "Invalid enum value"⟩]
  | some _ => .error [⟨[], "Invalid enum value"⟩]

/-- `z.record(z.string(), z.any()).default({})` (the `parameters`
field: any values pass). -/
def pDefRecordAny : Option JValue → ZRes (List (String × JValue))
  | none => .ok []
  | some (.obj fs) => .ok fs
  | some _ => .error [⟨[], "Expected object"⟩]

/-- Is the raw value a JSON string? -/
def isJStr : JValue → Bool
  | .str _ => true
  | _ => false

/-- Extract the strings of a JSON array (used after `isJStr` checks). -/
def jStrings (elems : List JValue) : List String :=
  elems.filterMap (fun v => match v with | .str s => some s | _ => none)

/-- `z.array(z.string()).optional()` (the `environments` field). -/
def pOptArrString : Option JValue → ZRes (Option (List String))
  | none => .ok none
  | some (.arr xs) =>
    if xs.all isJStr then .ok (some (jStrings xs))
    else .error [⟨[], "Expected string element"⟩]
  | some _ => .error [⟨[], "Expected array"⟩]

/-- `z.array(z.string()).default([])` (the `tags` field). -/
def pDefArrString : Option JValue → ZRes (List String)
  | none => .ok []
  | some (.arr xs) =>
    if xs.all isJStr then .ok (jStrings xs)
    else .error [⟨[], "Expected string element"⟩]
  | some _ => .error [⟨[], "Expected array"⟩]

/-- `z.union([z.string(), z.array(z.string()), z.number()])` on the
required `targetValue` field; the validated raw value is kept. -/
def pTargetValue : Option JValue → ZRes JValue
  | none => .error [⟨[], "Required"⟩]
  | some (.str s) => .ok (.str s)
  | some (.num n) => .ok (.num n)
  | some (.arr xs) =>
    if xs.all isJStr then .ok (.arr xs) else .error [⟨[], "Invalid input"⟩]
  | some _ => .error [⟨[], "Invalid input"⟩]

/-- Case-insensitive check of `/^exp\/[a-z0-9_-]+$/i` character class. -/
def branchChar (c : Char) : Bool :=
  ('a' ≤ c && c ≤ 'z') || ('0' ≤ c && c ≤ '9') || c == '_' || c == '-'

/-- `branchConfig.branchName` regex `/^exp\/[a-z0-9_-]+$/i`. -/
def branchNameOk (s : String) : Bool :=
  match s.data.map Char.toLower with
  | 'e' :: 'x' :: 'p' :: '/' :: rest => !rest.isEmpty && rest.all branchChar
  | _ => false

/-- The `branchName` field: required string matching the branch regex. -/
def pBranchName : Option JValue → ZRes String
  | none => .error [⟨[], "Required"⟩]
  | some (.str s) =>
    if branchNameOk s then .ok s
    else .error [⟨[], "Branch name must match exp/<key> pattern"⟩]
  | some _ => .error [⟨[], "Expected string"⟩]

/-- Parsed `VariantSchema` value. -/
structure Variant where
  name : String
  description : Option String
  parameters : List (String × JValue)
  passPercentage : Int

/-- Parsed `CodeChangeSchema` value (enums kept as their JSON string). -/
structure CodeChange where
  file : String
  function : String
  wrapWith : String
  parameterUsage : String
  insertionPoint : String
  customCode : Option String

/-- Parsed `TargetingConditionSchema` value. -/
structure TargetingCondition where
  type : String
  field : Option String
  operator : String
  targetValue : JValue

/-- Parsed `TargetingRuleSchema` value. -/
structure TargetingRule where
  name : String
  conditions : List TargetingCondition
  passPercentage : Int
  environments : Option (List String)

/-- Parsed `PrimaryMetricSchema` value. -/
structure PrimaryMetric where
  name : String
  type : String
  direction : String
  hypothesizedValue : Option Int

/-- Parsed `branchConfig` sub-object. -/
structure BranchConfig where
  branchName : String
  targetBranch : String
  createFromBranch : String

/-- Parsed `deployment` sub-object. -/
structure DeploymentConfig where
  platform : String
  previewDomain : Option String
  waitForDeployment : Bool
  deploymentTimeout : Int

/-- Parsed `statsig` sub-object. -/
structure StatsigConfig where
  idType : String
  environment : String
  autoStart : Bool
  targetingGateID : Option String

/-- Parsed `metadata` sub-object. -/
structure MetadataConfig where
  author : Option String
  tags : List String
  estimatedDuration : Option String
  successCriteria : Option String

/-- Parsed `ExperimentContractSchema` value. -/
structure ExperimentContract where
  experimentKey : String
  name : String
  description : Option String
  hypothesis : Option String
  variants : List (String × Variant)
  codeChanges : List CodeChange
  targetingRules : List TargetingRule
  allocation : Int
  primaryMetrics : List PrimaryMetric
  secondaryMetrics : List PrimaryMetric
  branchConfig : BranchConfig
  deployment : DeploymentConfig
  statsig : StatsigConfig
  metadata : MetadataConfig

/-- `VariantSchema.parse`. -/
def parseVariant : JValue → ZRes Variant
  | .obj fs =>
    zMap (fun (((n, d), ps), pp) => ⟨n, d, ps, pp⟩)
      (zip2 (zip2 (zip2
        (zAt "name" (pReqString "Variant name is required" (jLookup fs "name")))
        (zAt "description" (pOptString (jLookup fs "description"))))
        (zAt "parameters" (pDefRecordAny (jLookup fs "parameters"))))
        (zAt "passPercentage" (pDefNumMinMax 0 100 50 (jLookup fs "passPercentage"))))
  | _ => .error [⟨[], "Expected object"⟩]

/-- `z.record(z.string(), VariantSchema).parse`: every entry's value is
parsed, issues carry the entry's key in their path. -/
def parseVariantEntries : List (String × JValue) → ZRes (List (String × Variant))
  | [] => .ok []
  | (k, v) :: rest =>
    zMap (fun (x, xs) => (k, x) :: xs)
      (zip2 (zAt k (parseVariant v)) (parseVariantEntries rest))

/-- The `variants` field: record of variants refined with
"at least 2 entries" (the refinement only runs when the record itself
parsed, as in zod). -/
def parseVariantsField (fields : List (String × JValue)) :
    ZRes (List (String × Variant)) :=
  match jLookup fields "variants" with
  | none => .error [⟨["variants"], "Required"⟩]
  | some (.obj vs) =>
    match zAt "variants" (parseVariantEntries vs) with
    | .ok parsed =>
      if 2 ≤ vs.length then .ok parsed
      else .error [⟨["variants"],
        "At least 2 variants are required (control and treatment)"⟩]
    | .error e => .error e
  | some _ => .error [⟨["variants"], "Expected object"⟩]

/-- `CodeChangeSchema.parse`. -/
def parseCodeChange : JValue → ZRes CodeChange
  | .obj fs =>
    zMap (fun (((((f, fn), w), pu), ip), cc) => ⟨f, fn, w, pu, ip, cc⟩)
      (zip2 (zip2 (zip2 (zip2 (zip2
        (zAt "file" (pReqString "File path is required" (jLookup fs "file")))
        (zAt "function"
          (pReqString "Function/component name is required" (jLookup fs "function"))))
        (zAt "wrapWith"
          (pDefEnum ["getExperiment", "getExperimentParams"] "getExperiment"
            (jLookup fs "wrapWith"))))
        (zAt "parameterUsage"
          (pReqString "Parameter usage is required" (jLookup fs "parameterUsage"))))
        (zAt "insertionPoint"
          (pDefEnum ["before", "after", "replace"] "before"
            (jLookup fs "insertionPoint"))))
        (zAt "customCode" (pOptString (jLookup fs "customCode"))))
  | _ => .error [⟨[], "Expected object"⟩]

/-- `TargetingConditionSchema.parse`. -/
def parseTargetingCondition : JValue → ZRes TargetingCondition
  | .obj fs =>
    zMap (fun (((t, f), op), tv) => ⟨t, f, op, tv⟩)
      (zip2 (zip2 (zip2
        (zAt "type"
          (pReqEnum ["branch", "url", "user_id", "custom_field", "environment"]
            (jLookup fs "type")))
        (zAt "field" (pOptString (jLookup fs "field"))))
        (zAt "operator"
          (pDefEnum ["equals", "contains", "starts_with", "ends_with", "in", "not_in"]
            "equals" (jLookup fs "operator"))))
        (zAt "targetValue" (pTargetValue (jLookup fs "targetValue"))))
  | _ => .error [⟨[], "Expected object"⟩]

/-- `z.array(schema).parse` with numeric index paths. -/
def parseArrayAux {α : Type} (p : JValue → ZRes α) (i : Nat) :
    List JValue → ZRes (List α)
  | [] => .ok []
  | v :: vs =>
    zMap (fun (x, xs) => x :: xs)
      (zip2 (zAt (toString i) (p v)) (parseArrayAux p (i + 1) vs))

/-- `TargetingRuleSchema.parse`. -/
def parseTargetingRule : JValue → ZRes TargetingRule
  | .obj fs =>
    zMap (fun (((n, cs), pp), env) => ⟨n, cs, pp, env⟩)
      (zip2 (zip2 (zip2
        (zAt "name" (pReqString "Rule name is required" (jLookup fs "name")))
        (zAt "conditions"
          (match jLookup fs "conditions" with
            | none => .error [⟨[], "Required"⟩]
            | some (.arr xs) =>
              match parseArrayAux parseTargetingCondition 0 xs with
              | .ok l =>
                if 1 ≤ xs.length then .ok l
                else .error [⟨[], "At least one condition is required"⟩]
              | .error e => .error e
            | some _ => .error [⟨[], "Expected array"⟩])))
        (zAt "passPercentage" (pDefNumMinMax 0 100 100 (jLookup fs "passPercentage"))))
        (zAt "environments" (pOptArrString (jLookup fs "environments"))))
  | _ => .error [⟨[], "Expected object"⟩]

/-- `PrimaryMetricSchema.parse`. -/
def parseMetric : JValue → ZRes PrimaryMetric
  | .obj fs =>
    zMap (fun (((n, t), d), hv) => ⟨n, t, d, hv⟩)
      (zip2 (zip2 (zip2
        (zAt "name" (pReqString "Metric name is required" (jLookup fs "name")))
        (zAt "type"
          (pDefEnum ["count", "ratio", "revenue", "duration"] "count"
            (jLookup fs "type"))))
        (zAt "direction"
          (pDefEnum ["increase", "decrease"] "increase" (jLookup fs "direction"))))
        (zAt "hypothesizedValue" (pOptNum (jLookup fs "hypothesizedValue"))))
  | _ => .error [⟨[], "Expected object"⟩]

/-- The `codeChanges` field: `z.array(CodeChangeSchema).min(1, msg)`. -/
def parseCodeChangesField (fields : List (String × JValue)) : ZRes (List CodeChange) :=
  match jLookup fields "codeChanges" with
  | none => .error [⟨["codeChanges"], "Required"⟩]
  | some (.arr xs) =>
    match zAt "codeChanges" (parseArrayAux parseCodeChange 0 xs) with
    | .ok l =>
      if 1 ≤ xs.length then .ok l
      else .error [⟨["codeChanges"], "At least one code change is required"⟩]
    | .error e => .error e
  | some _ => .error [⟨["codeChanges"], "Expected array"⟩]

/-- An array field with `.default([])`. -/
def parseDefArrayField {α : Type} (p : JValue → ZRes α) (key : String)
    (fields : List (String × JValue)) : ZRes (List α) :=
  match jLookup fields key with
  | none => .ok []
  | some (.arr xs) => zAt key (parseArrayAux p 0 xs)
  | some _ => .error [⟨[key], "Expected array"⟩]

/-- The required `branchConfig` sub-object. -/
def parseBranchConfig (fields : List (String × JValue)) : ZRes BranchConfig :=
  match jLookup fields "branchConfig" with
  | none => .error [⟨["branchConfig"], "Required"⟩]
  | some (.obj fs) =>
    zAt "branchConfig"
      (zMap (fun ((bn, tb), cf) => ⟨bn, tb, cf⟩)
        (zip2 (zip2
          (zAt "branchName" (pBranchName (jLookup fs "branchName")))
          (zAt "targetBranch" (pDefString "main" (jLookup fs "targetBranch"))))
          (zAt "createFromBranch" (pDefString "main" (jLookup fs "createFromBranch")))))
  | some _ => .error [⟨["branchConfig"], "Expected object"⟩]

/-- The required `deployment` sub-object. -/
def parseDeployment (fields : List (String × JValue)) : ZRes DeploymentConfig :=
  match jLookup fields "deployment" with
  | none => .error [⟨["deployment"], "Required"⟩]
  | some (.obj fs) =>
    zAt "deployment"
      (zMap (fun (((p, pd), w), t) => ⟨p, pd, w, t⟩)
        (zip2 (zip2 (zip2
          (zAt "platform"
            (pDefEnum ["vercel", "netlify", "other"] "vercel" (jLookup fs "platform")))
          (zAt "previewDomain" (pOptString (jLookup fs "previewDomain"))))
          (zAt "waitForDeployment" (pDefBool true (jLookup fs "waitForDeployment"))))
          (zAt "deploymentTimeout" (pDefNum 300000 (jLookup fs "deploymentTimeout")))))
  | some _ => .error [⟨["deployment"], "Expected object"⟩]

/-- The required `statsig` sub-object. -/
def parseStatsig (fields : List (String × JValue)) : ZRes StatsigConfig :=
  match jLookup fields "statsig" with
  | none => .error [⟨["statsig"], "Required"⟩]
  | some (.obj fs) =>
    zAt "statsig"
      (zMap (fun (((it, env), a), tg) => ⟨it, env, a, tg⟩)
        (zip2 (zip2 (zip2
          (zAt "idType" (pDefEnum ["user_id", "unit_id"] "user_id" (jLookup fs "idType")))
          (zAt "environment"
            (pDefEnum ["development", "staging", "production"] "development"
              (jLookup fs "environment"))))
          (zAt "autoStart" (pDefBool false (jLookup fs "autoStart"))))
          (zAt "targetingGateID" (pOptString (jLookup fs "targetingGateID")))))
  | some _ => .error [⟨["statsig"], "Expected object"⟩]

/-- The `metadata` sub-object with `.default(() => ({ tags: [] }))`. -/
def parseMetadata (fields : List (String × JValue)) : ZRes MetadataConfig :=
  match jLookup fields "metadata" with
  | none => .ok ⟨none, [], none, none⟩
  | some (.obj fs) =>
    zAt "metadata"
      (zMap (fun (((a, t), ed), sc) => ⟨a, t, ed, sc⟩)
        (zip2 (zip2 (zip2
          (zAt "author" (pOptString (jLookup fs "author")))
          (zAt "tags" (pDefArrString (jLookup fs "tags"))))
          (zAt "estimatedDuration" (pOptString (jLookup fs "estimatedDuration"))))
          (zAt "successCriteria" (pOptString (jLookup fs "successCriteria")))))
  | some _ => .error [⟨["metadata"], "Expected object"⟩]

/-- `ExperimentContractSchema.parse`. -/
def parseContract : JValue → ZRes ExperimentContract
  | .obj fields =>
    zMap (fun (((((((((((((ek, n), d), h), vs), cc), tr), al), pm), sm), bc), dep), st), md) =>
        ⟨ek, n, d, h, vs, cc, tr, al, pm, sm, bc, dep, st, md⟩)
      (zip2 (zip2 (zip2 (zip2 (zip2 (zip2 (zip2 (zip2 (zip2 (zip2 (zip2 (zip2 (zip2
        (zAt "experimentKey"
          (pReqString "Experiment key is required" (jLookup fields "experimentKey")))
        (zAt "name"
          (pReqString "Experiment name is required" (jLookup fields "name"))))
        (zAt "description" (pOptString (jLookup fields "description"))))
        (zAt "hypothesis" (pOptString (jLookup fields "hypothesis"))))
        (parseVariantsField fields))
        (parseCodeChangesField fields))
        (parseDefArrayField parseTargetingRule "targetingRules" fields))
        (zAt "allocation" (pDefNumMinMax 0 100 100 (jLookup fields "allocation"))))
        (parseDefArrayField parseMetric "primaryMetrics" fields))
        (parseDefArrayField parseMetric "secondaryMetrics" fields))
        (parseBranchConfig fields))
        (parseDeployment fields))
        (parseStatsig fields))
        (parseMetadata fields))
  | _ => .error [⟨[], "Expected object"⟩]

/-- `validateContract`: parse, and on failure throw one error whose
message joins every issue as `"<path>: <message>"` lines. -/
def validateContract (raw : JValue) : Except String ExperimentContract :=
  match parseContract raw with
  | .ok c => .ok c
  | .error issues =>
    .error ("Contract validation failed:\n" ++
      jsJoin "\n" (issues.map (fun i => jsJoin "." i.path ++ ": " ++ i.message)))

end TechVault.ContractSchema

namespace TechVault

/-- In-memory model of the filesystem: path to file content.
`existsSync` is `(fs p).isSome`. -/
def FS : Type := String → Option String

/-- `writeFileSync`. -/
def fsWrite (fs : FS) (path content : String) : FS :=
  fun p => if p = path then some content else fs p

/-- `unlinkSync`. -/
def fsDelete (fs : FS) (path : String) : FS :=
  fun p => if p = path then none else fs p

/-- `readFileSync` as an `Except`: the missing-file exception carries
Node's ENOENT message. -/
def fsRead (fs : FS) (path : String) : Except String String :=
  match fs path with
  | some content => .ok content
  | none => .error ("ENOENT: no such file or directory, open '" ++ path ++ "'")

/-- Node `path.join(root, rel)` for the simple relative paths used by
the scripts. -/
def joinPath (root rel : String) : String := root ++ "/" ++ rel

end TechVault

namespace TechVault.CodeGen

open TechVault.ContractSchema

/-- `CodeModificationResult`. -/
structure CodeModificationResult where
  success : Bool
  file : String
  changes : List String
  errors : List String
  deriving Repr, DecidableEq

/-- `CodeGenerator.applyCodeChange` (fuelled through
`generateModifiedCode`; `none` = the scanning loop did not finish).
The inner `try`/`catch` turns the generator's throw into an error entry
of the result; a write happens only when the generated content differs
from the original. -/
def applyCodeChange (fuel : Nat) (fs : FS) (projectRoot : String)
    (codeChange : CodeChange) (contract : ExperimentContract) :
    Option (CodeModificationResult × FS) :=
  let filePath := joinPath projectRoot codeChange.file
  match fsRead fs filePath with
  | .error msg =>
    some ({ success := false, file := codeChange.file, changes := [],
            errors := [msg] }, fs)
  | .ok originalContent =>
    match generateModifiedCode fuel originalContent codeChange.function
        contract.experimentKey codeChange.parameterUsage with
    | .outOfFuel => none
    | .err msg =>
      some ({ success := false, file := codeChange.file, changes := [],
              errors := [msg] }, fs)
    | .ok modifiedContent =>
      if modifiedContent ≠ originalContent then
        some ({ success := true, file := codeChange.file,
                changes := ["Modified " ++ codeChange.function ++
                  " to include experiment check"],
                errors := [] }, fsWrite fs filePath modifiedContent)
      else
        some ({ success := false, file := codeChange.file, changes := [],
                errors := ["No changes were made to the file"] }, fs)

/-- Loop body of `CodeGenerator.applyCodeChanges`: one result is pushed
per contract entry, in order (the `catch` around each entry cannot fire
in the model because `applyCodeChange` already catches everything). -/
def applyCodeChangesAux (fuel : Nat) (fs : FS) (projectRoot : String)
    (contract : ExperimentContract) :
    List CodeChange → Option (List CodeModificationResult × FS)
  | [] => some ([], fs)
  | c :: rest =>
    match applyCodeChange fuel fs projectRoot c contract with
    | none => none
    | some (r, fs1) =>
      match applyCodeChangesAux fuel fs1 projectRoot contract rest with
      | none => none
      | some (rs, fs2) => some (r :: rs, fs2)

/-- `CodeGenerator.applyCodeChanges`. -/
def applyCodeChanges (fuel : Nat) (fs : FS) (projectRoot : String)
    (contract : ExperimentContract) :
    Option (List CodeModificationResult × FS) :=
  applyCodeChangesAux fuel fs projectRoot contract contract.codeChanges

/-- `CodeGenerator.createRollback`: write the given original content to
the `<file>.rollback` sidecar. -/
def createRollback (fs : FS) (filePath originalContent : String) : FS :=
  fsWrite fs (filePath ++ ".rollback") originalContent

/-- `CodeGenerator.restoreFromRollback`: copy the sidecar back over the
file and delete the sidecar, or throw when there is no sidecar. -/
def restoreFromRollback (fs : FS) (filePath : String) : Except String FS :=
  let rollbackPath := filePath ++ ".rollback"
  match fs rollbackPath with
  | some originalContent =>
    .ok (fsDelete (fsWrite fs filePath originalContent) rollbackPath)
  | none => .error ("No rollback file found: " ++ rollbackPath)

end TechVault.CodeGen

namespace TechVault.FastGen

open TechVault.ContractSchema TechVault.CodeGen

/-!
Model of the `FastCodeGenerator` (fast string-replacement variant).
Its patterns are JS regexes built from three constructs only: literal
characters, `.*` (greedy, not matching newline) and `[^)]*` (greedy).
They are modelled by a token-list pattern and a backtracking matcher
with JS semantics: leftmost match position, greedy quantifiers with
backtracking.
-/

/-- One token of a modelled regex: a literal string, or a greedy star
over a character predicate. -/
inductive RTok where
  | lit (s : String)
  | star (p : Char → Bool)

mutual

/-- Match a token sequence against `cs`, returning the suffix left over
after the match chosen by backtracking-greedy semantics. -/
def matchToks : List RTok → List Char → Option (List Char)
  | [], cs => some cs
  | .lit l :: ts, cs =>
    if chStarts l.data cs then matchToks ts (cs.drop l.data.length) else none
  | .star p :: ts, cs => matchStar p ts (cs.takeWhile p).length cs
termination_by ts _ => (ts.length, 0, 0)

/-- Greedy `star`: try consuming `k` characters (at most the maximal
run satisfying `p`), longest first, backtracking on failure. -/
def matchStar (p : Char → Bool) (ts : List RTok) : Nat → List Char → Option (List Char)
  | 0, cs => matchToks ts cs
  | k + 1, cs =>
    match matchToks ts (cs.drop (k + 1)) with
    | some rest => some rest
    | none => matchStar p ts k cs
termination_by k _ => (ts.length, 1, k)

end

end TechVault.FastGen

namespace TechVault.FastGen

open TechVault.ContractSchema TechVault.CodeGen

/-- Leftmost match of the pattern in `cs` (JS regex scan): returns
`(prefix, matched, suffix)`. -/
def reFind (ts : List RTok) (cs : List Char) :
    Option (List Char × List Char × List Char) :=
  match matchToks ts cs with
  | some rest => some ([], cs.take (cs.length - rest.length), rest)
  | none =>
    match cs with
    | [] => none
    | c :: cs' => (reFind ts cs').map (fun r => (c :: r.1, r.2.1, r.2.2))
termination_by cs.length

/-- JS `pattern.test(content)`. -/
def reTest (ts : List RTok) (s : String) : Bool := (reFind ts s.data).isSome

/-- JS `content.replace(pattern, repl)` where the replacement maps the
matched text (`$&`, or `$1` of a whole-pattern group) to new text; the
content is returned unchanged when the pattern does not match. -/
def reReplaceOnce (ts : List RTok) (s : String) (repl : String → String) : String :=
  match reFind ts s.data with
  | none => s
  | some (pre, m, post) => ⟨pre⟩ ++ repl ⟨m⟩ ++ ⟨post⟩

/-- The regex `/import.*from.*react.*;/` used to place the Statsig
line after an existing react import (`.` does not match newline). -/
def reactImportRe : List RTok :=
  [.lit "import", .star (fun c => !(c == '\n')), .lit "from",
   .star (fun c => !(c == '\n')), .lit "react",
   .star (fun c => !(c == '\n')), .lit ";"]

/-- The seven `ProductCard` declaration regexes of
`FastCodeGenerator.modifyProductCard` (every metacharacter in them is
escaped, so each is a literal string). -/
def productCardPatterns : List (List RTok) :=
  [[.lit "export default function ProductCard(\x7b product, onAddToCart \x7d: ProductCardProps) => \x7b"],
   [.lit "export default function ProductCard(\x7b product, onAddToCart \x7d: ProductCardProps) \x7b"],
   [.lit "export default function ProductCard(\x7b product \x7d: ProductCardProps) => \x7b"],
   [.lit "export default function ProductCard(\x7b product \x7d: ProductCardProps) \x7b"],
   [.lit "function ProductCard(\x7b product, onAddToCart \x7d: ProductCardProps) => \x7b"],
   [.lit "function ProductCard(\x7b product, onAddToCart \x7d: ProductCardProps) \x7b"],
   [.lit "const ProductCard = (\x7b product, onAddToCart \x7d: ProductCardProps) => \x7b"]]

/-- The regex `(const <fn> = \([^)]*\) => \{)` of
`FastCodeGenerator.modifyGenericComponent`. -/
def genericFunctionRe (functionName : String) : List RTok :=
  [.lit ("const " ++ functionName ++ " = ("),
   .star (fun c => !(c == ')')),
   .lit (") => \x7b")]

/-- The injected experiment-logic snippet of the fast generator. -/
def fastExperimentLogic (componentName experimentKey parameterName : String) : String :=
  "\n" ++
  "  // Experiment: " ++ experimentKey ++ "\n" ++
  "  const experiment = await getExperiment('" ++ experimentKey ++ "');\n" ++
  "  const " ++ parameterName ++ " = experiment.metadata?.config?." ++
    parameterName ++ " ?? false;\n" ++
  "  \n" ++
  "  // Log exposure when user sees this experiment\n" ++
  "  await logExposure('" ++ experimentKey ++ "', experiment.variant, \x7b\n" ++
  "    component: '" ++ componentName ++ "',\n" ++
  "    parameter: '" ++ parameterName ++ "'\n" ++
  "  \x7d);"

/-- `FastCodeGenerator.modifyProductCard`. -/
def modifyProductCard (content experimentKey parameterName : String) : String :=
  let content1 :=
    if !(jsIncludes content "getExperiment") then
      reReplaceOnce reactImportRe content (fun m => m ++ "\n" ++ statsigImportLine)
    else content
  match productCardPatterns.find? (fun pat => reTest pat content1) with
  | some pat =>
    reReplaceOnce pat content1
      (fun m => m ++ fastExperimentLogic "ProductCard" experimentKey parameterName)
  | none => content1

/-- `FastCodeGenerator.modifyGenericComponent`. -/
def modifyGenericComponent (content functionName experimentKey parameterName : String) :
    String :=
  let content1 :=
    if !(jsIncludes content "getExperiment") then
      reReplaceOnce reactImportRe content (fun m => m ++ "\n" ++ statsigImportLine)
    else content
  if reTest (genericFunctionRe functionName) content1 then
    reReplaceOnce (genericFunctionRe functionName) content1
      (fun m => m ++ fastExperimentLogic functionName experimentKey parameterName)
  else content1

/-- `FastCodeGenerator.fastStringReplace`. -/
def fastStringReplace (file content functionName experimentKey parameterName : String) :
    String :=
  if jsIncludes file "ProductCard.tsx" then
    modifyProductCard content experimentKey parameterName
  else if jsIncludes file ".tsx" || jsIncludes file ".ts" then
    modifyGenericComponent content functionName experimentKey parameterName
  else content

/-- `FastCodeGenerator.applyCodeChange`. -/
def fastApplyCodeChange (fs : FS) (projectRoot : String)
    (codeChange : CodeChange) (contract : ExperimentContract) :
    CodeModificationResult × FS :=
  let filePath := joinPath projectRoot codeChange.file
  match fsRead fs filePath with
  | .error msg =>
    ({ success := false, file := codeChange.file, changes := [], errors := [msg] }, fs)
  | .ok originalContent =>
    let modifiedContent := fastStringReplace codeChange.file originalContent
      codeChange.function contract.experimentKey codeChange.parameterUsage
    if modifiedContent ≠ originalContent then
      ({ success := true, file := codeChange.file,
         changes := ["Applied experiment logic via fast string replacement"],
         errors := [] }, fsWrite fs filePath modifiedContent)
    else
      ({ success := false, file := codeChange.file, changes := [],
         errors := ["No changes were made to the file"] }, fs)

/-- Loop body of `FastCodeGenerator.applyCodeChanges`. -/
def fastApplyCodeChangesAux (fs : FS) (projectRoot : String)
    (contract : ExperimentContract) :
    List CodeChange → List CodeModificationResult × FS
  | [] => ([], fs)
  | c :: rest =>
    let (r, fs1) := fastApplyCodeChange fs projectRoot c contract
    let (rs, fs2) := fastApplyCodeChangesAux fs1 projectRoot contract rest
    (r :: rs, fs2)

/-- `FastCodeGenerator.applyCodeChanges`. -/
def fastApplyCodeChanges (fs : FS) (projectRoot : String)
    (contract : ExperimentContract) : List CodeModificationResult × FS :=
  fastApplyCodeChangesAux fs projectRoot contract contract.codeChanges

end TechVault.FastGen

namespace TechVault.Vercel

/-!
Model of the Vercel client's `pollDeployment` (the deployment-status
polling loop). Each status fetch is an oracle indexed by poll number;
fetches are modelled as instantaneous, so wall-clock time advances by
the 5-second sleep between polls and `elapsed` is the value of
`Date.now() - startTime` at each loop-condition check. The second
component of the result is the elapsed wall-clock time at return.
-/

/-- Fields of a fetched deployment JSON. -/
structure VercelDeployment where
  id : String
  url : String
  state : String
  createdAt : Int
  readyAt : Option Int
  error : Option String
  deriving Repr, DecidableEq

/-- `VercelDeploymentResult`. -/
structure VercelDeploymentResult where
  success : Bool
  deployment : Option VercelDeployment
  error : Option String
  url : Option String
  deriving Repr, DecidableEq

/-- Outcome of one status fetch: parsed deployment, non-2xx response,
or a thrown transport/parse error. -/
inductive PollFetch where
  | ok (dep : VercelDeployment)
  | notOk (statusText : String)
  | raise (msg : String)
  deriving Repr

/-- JS `a || b` for an optional string (empty string is falsy). -/
def jsOrElse (o : Option String) (alt : String) : String :=
  match o with
  | some s => if s == "" then alt else s
  | none => alt

/-- JS `s.toLowerCase()` (ASCII). -/
def jsToLower (s : String) : String := ⟨s.data.map Char.toLower⟩

/-- Polling interval of `pollDeployment` (ms). -/
def pollInterval : Nat := 5000

/-- The `while (Date.now() - startTime < timeoutMs)` loop of
`VercelClient.pollDeployment`. -/
def pollAux (fetchAt : Nat → PollFetch) (timeoutMs : Nat) (n elapsed : Nat) :
    VercelDeploymentResult × Nat :=
  if _h : elapsed < timeoutMs then
    match fetchAt n with
    | .notOk statusText =>
      ({ success := false, deployment := none,
         error := some ("Failed to get deployment status: " ++ statusText),
         url := none }, elapsed)
    | .raise msg =>
      ({ success := false, deployment := none, error := some msg, url := none },
       elapsed)
    | .ok dep =>
      if dep.state = "READY" then
        ({ success := true, deployment := some dep, error := none,
           url := some dep.url }, elapsed)
      else if dep.state = "ERROR" ∨ dep.state = "CANCELED" then
        ({ success := false, deployment := none,
           error := some (jsOrElse dep.error ("Deployment " ++ jsToLower dep.state)),
           url := none }, elapsed)
      else
        pollAux fetchAt timeoutMs (n + 1) (elapsed + pollInterval)
  else
    ({ success := false, deployment := none,
       error := some "Deployment timeout - deployment did not complete within the specified time",
       url := none }, elapsed)
termination_by timeoutMs - elapsed
decreasing_by simp [pollInterval]; omega

/-- `VercelClient.pollDeployment`. -/
def pollDeployment (fetchAt : Nat → PollFetch) (timeoutMs : Nat) :
    VercelDeploymentResult × Nat :=
  pollAux fetchAt timeoutMs 0 0

end TechVault.Vercel

namespace TechVault.EnvValidator

/-!
Model of `env-validator.ts` (`validateEnvironment`): process
environment and `.env.local` existence are oracles.
-/

/-- Process environment oracle: variable name to value, plus the
working directory (for the `.env.local` lookup). -/
structure SysEnv where
  vars : String → Option String
  cwd : String

/-- `EnvValidationResult`. -/
structure EnvValidationResult where
  success : Bool
  errors : List String
  warnings : List String
  missing : List String
  deriving Repr, DecidableEq

/-- `REQUIRED_VARS`. -/
def REQUIRED_VARS : List String :=
  ["NEXT_PUBLIC_STATSIG_CLIENT_KEY", "STATSIG_CONSOLE_API_KEY",
   "NEXT_PUBLIC_STATSIG_TIER"]

/-- `OPTIONAL_VARS`. -/
def OPTIONAL_VARS : List String :=
  ["EXPERIMENT_BRANCH", "VERCEL_TOKEN", "VERCEL_ORG_ID", "VERCEL_PROJECT_ID",
   "GITHUB_TOKEN", "SLACK_WEBHOOK_URL"]

/-- JS `!value || value.includes('***')` for a looked-up env var
(undefined and the empty string are falsy). -/
def varMissingOrMasked (value : Option String) : Bool :=
  match value with
  | none => true
  | some v => v == "" || jsIncludes v "***"

/-- Required-variable loop body. -/
def requiredStep (env : SysEnv) (r : EnvValidationResult) (varName : String) :
    EnvValidationResult :=
  if varMissingOrMasked (env.vars varName) then
    { r with success := false
             errors := r.errors ++ ["Missing or invalid " ++ varName]
             missing := r.missing ++ [varName] }
  else r

/-- Optional-variable loop body. -/
def optionalStep (env : SysEnv) (r : EnvValidationResult) (varName : String) :
    EnvValidationResult :=
  if varMissingOrMasked (env.vars varName) then
    { r with warnings := r.warnings ++ ["Optional variable " ++ varName ++ " not set"] }
  else r

/-- A format warning of the shape `if (value && !check(value))`. -/
def formatWarning (value : Option String) (check : String → Bool) (msg : String)
    (r : EnvValidationResult) : EnvValidationResult :=
  match value with
  | some v =>
    if v != "" && !(check v) then { r with warnings := r.warnings ++ [msg] } else r
  | none => r

/-- `validateEnvironment`. -/
def validateEnvironment (fs : FS) (env : SysEnv) : EnvValidationResult :=
  let r0 : EnvValidationResult :=
    { success := true, errors := [], warnings := [], missing := [] }
  let r1 :=
    if (fs (joinPath env.cwd ".env.local")).isNone then
      { r0 with warnings := r0.warnings ++
          ["No .env.local file found. Using system environment variables."] }
    else r0
  let r2 := REQUIRED_VARS.foldl (requiredStep env) r1
  let r3 := OPTIONAL_VARS.foldl (optionalStep env) r2
  let r4 := formatWarning (env.vars "NEXT_PUBLIC_STATSIG_CLIENT_KEY")
    (fun v => jsStartsWith v "client-")
    "NEXT_PUBLIC_STATSIG_CLIENT_KEY should start with \"client-\"" r3
  let r5 := formatWarning (env.vars "STATSIG_CONSOLE_API_KEY")
    (fun v => jsStartsWith v "console-")
    "STATSIG_CONSOLE_API_KEY should start with \"console-\"" r4
  formatWarning (env.vars "NEXT_PUBLIC_STATSIG_TIER")
    (fun v => ["development", "staging", "production"].contains v)
    "NEXT_PUBLIC_STATSIG_TIER should be development, staging, or production" r5

end TechVault.EnvValidator

namespace TechVault.MCP

open TechVault.ContractSchema

/-!
Model of `src/scripts/lib/mcp-client.ts` (`MCPClient`). The loaded
`~/.cursor/mcp.json` contents, the process environment and the remote
HTTP endpoint are oracles. `callMCPTool` threads a call counter and a
trace of issued HTTP calls, so read-then-update sequences can be
stated. Fetch responses: `ok` is a 2xx response with parsed JSON body,
`notOk` a non-2xx response, `raise` a thrown transport/parse error.
-/

/-- `MCPResponse`. -/
structure MCPResponse where
  success : Bool
  data : Option JValue
  error : Option String

/-- Outcome of one `fetch` against the Statsig console API. -/
inductive FetchOutcome where
  | ok (data : JValue)
  | notOk (status : Nat) (statusText : String) (text : String)
  | raise (msg : String)

/-- Parameters passed to `callMCPTool` (`path_id` and the
`'application/json'` entry are the only keys the client ever sets). -/
structure MCPParams where
  path_id : Option String
  appJson : Option JValue

/-- One issued HTTP call, for stating read/update sequences. -/
structure MCPCall where
  tool : String
  endpoint : String
  method : String
  body : Option JValue

/-- Field access `v?.k` (undefined on non-objects). -/
def jGet (v : JValue) (k : String) : Option JValue :=
  match v with
  | .obj fs => jLookup fs k
  | _ => none

/-- Optional chaining on an already-optional value. -/
def oGet (o : Option JValue) (k : String) : Option JValue :=
  o.bind (fun v => jGet v k)

/-- JS truthiness of a JSON value. -/
def jsTruthyJ : JValue → Bool
  | .str s => s != ""
  | .num n => n != 0
  | .bool b => b
  | .null => false
  | .arr _ => true
  | .obj _ => true

/-- `MCPClient` construction (`loadMCPConfig`): the combined outcome of
reading and JSON-parsing `~/.cursor/mcp.json` is an oracle; any failure
is caught and rethrown as the fixed configuration error. -/
def mkMCPClient (configRead : Except String JValue) : Except String JValue :=
  match configRead with
  | .ok config => .ok config
  | .error _ =>
    .error "MCP configuration not found. Please ensure MCP is properly configured."

/-- `MCPClient.getAuthToken`: environment variable first, then the MCP
config fallback; throws when both are absent/falsy. -/
def getAuthToken (envVars : String → Option String) (mcpConfig : JValue) :
    Except String JValue :=
  match envVars "STATSIG_CONSOLE_API_KEY" with
  | some v =>
    if v != "" then .ok (.str v)
    else
      match oGet (oGet (oGet (jGet mcpConfig "mcpServers") "statsig") "env") "AUTH_TOKEN" with
      | some t =>
        if jsTruthyJ t then .ok t
        else .error "Statsig AUTH_TOKEN not found in MCP configuration or environment"
      | none => .error "Statsig AUTH_TOKEN not found in MCP configuration or environment"
  | none =>
    match oGet (oGet (oGet (jGet mcpConfig "mcpServers") "statsig") "env") "AUTH_TOKEN" with
    | some t =>
      if jsTruthyJ t then .ok t
      else .error "Statsig AUTH_TOKEN not found in MCP configuration or environment"
    | none => .error "Statsig AUTH_TOKEN not found in MCP configuration or environment"

/-- `MCPClient.mapToolToEndpoint` (a missing `path_id` would render as
the string `undefined` in the JS template literal). -/
def mapToolToEndpoint (toolName : String) (params : MCPParams) :
    Except String String :=
  let baseUrl := "https://statsigapi.net/console/v1"
  let pid := params.path_id.getD "undefined"
  if toolName = "mcp_statsig-local_Create_Experiment" then
    .ok (baseUrl ++ "/experiments")
  else if toolName = "mcp_statsig-local_Get_Experiment_Details_by_ID" then
    .ok (baseUrl ++ "/experiments/" ++ pid)
  else if toolName = "mcp_statsig-local_Update_Experiment_Entirely" then
    .ok (baseUrl ++ "/experiments/" ++ pid)
  else if toolName = "mcp_statsig-local_Get_List_of_Experiments" then
    .ok (baseUrl ++ "/experiments")
  else if toolName = "mcp_statsig-local_Get_Experiment_Results" then
    .ok (baseUrl ++ "/experiments/" ++ pid ++ "/results")
  else if toolName = "mcp_statsig-local_Create_Gate" then
    .ok (baseUrl ++ "/gates")
  else if toolName = "mcp_statsig-local_Get_Gate_Details_by_ID" then
    .ok (baseUrl ++ "/gates/" ++ pid)
  else if toolName = "mcp_statsig-local_Update_Gate_Entirely" then
    .ok (baseUrl ++ "/gates/" ++ pid)
  else if toolName = "mcp_statsig-local_Get_List_of_Gates" then
    .ok (baseUrl ++ "/gates")
  else if toolName = "mcp_statsig-local_Get_Gate_Results" then
    .ok (baseUrl ++ "/gates/" ++ pid ++ "/results")
  else if toolName = "mcp_statsig-local_Create_Dynamic_Config" then
    .ok (baseUrl ++ "/dynamic_configs")
  else if toolName = "mcp_statsig-local_Get_Dynamic_Config_Details_by_ID" then
    .ok (baseUrl ++ "/dynamic_configs/" ++ pid)
  else if toolName = "mcp_statsig-local_Update_Dynamic_Config_Entirely" then
    .ok (baseUrl ++ "/dynamic_configs/" ++ pid)
  else if toolName = "mcp_statsig-local_Get_List_of_Dynamic_Configs" then
    .ok (baseUrl ++ "/dynamic_configs")
  else .error ("Unknown MCP tool: " ++ toolName)

/-- `MCPClient.getHttpMethod`. -/
def getHttpMethod (toolName : String) : String :=
  if jsIncludes toolName "Get_" || jsIncludes toolName "Get_List_of_" ||
      jsIncludes toolName "Get_Experiment_Results" ||
      jsIncludes toolName "Get_Gate_Results" then "GET"
  else "POST"

/-- `JSON.stringify(params)` for the fallback request body (only
`path_id` can be present when `'application/json'` is absent). -/
def paramsAsJson (params : MCPParams) : JValue :=
  .obj (match params.path_id with
    | some s => [("path_id", .str s)]
    | none => [])

/-- `MCPClient.callMCPTool`: resolves the auth token, endpoint and
method, issues the fetch, and catches every throw into a failure
response. State `(n, calls)`: next fetch index and issued-call trace. -/
def callMCPTool (envVars : String → Option String) (mcpConfig : JValue)
    (remote : Nat → FetchOutcome) (st : Nat × List MCPCall)
    (toolName : String) (params : MCPParams) :
    MCPResponse × (Nat × List MCPCall) :=
  match getAuthToken envVars mcpConfig with
  | .error msg => ({ success := false, data := none, error := some msg }, st)
  | .ok _authToken =>
    match mapToolToEndpoint toolName params with
    | .error msg => ({ success := false, data := none, error := some msg }, st)
    | .ok endpoint =>
      let method := getHttpMethod toolName
      let body :=
        if method ≠ "GET" then
          some (match params.appJson with
            | some j => j
            | none => paramsAsJson params)
        else none
      let (n, calls) := st
      let call : MCPCall :=
        { tool := toolName, endpoint := endpoint, method := method, body := body }
      match remote n with
      | .ok data =>
        ({ success := true, data := some data, error := none },
         (n + 1, calls ++ [call]))
      | .notOk status statusText text =>
        ({ success := false, data := none,
           error := some ("Statsig API error: " ++ toString status ++ " " ++
             statusText ++ " - " ++ text) },
         (n + 1, calls ++ [call]))
      | .raise msg =>
        ({ success := false, data := none, error := some msg },
         (n + 1, calls ++ [call]))

/-- `MCPClient.getExperimentDetails`. -/
def getExperimentDetails (envVars : String → Option String) (mcpConfig : JValue)
    (remote : Nat → FetchOutcome) (st : Nat × List MCPCall)
    (experimentId : String) : MCPResponse × (Nat × List MCPCall) :=
  callMCPTool envVars mcpConfig remote st
    "mcp_statsig-local_Get_Experiment_Details_by_ID"
    { path_id := some experimentId, appJson := none }

/-- `MCPClient.updateExperiment`. -/
def updateExperiment (envVars : String → Option String) (mcpConfig : JValue)
    (remote : Nat → FetchOutcome) (st : Nat × List MCPCall)
    (experimentId : String) (config : JValue) : MCPResponse × (Nat × List MCPCall) :=
  callMCPTool envVars mcpConfig remote st
    "mcp_statsig-local_Update_Experiment_Entirely"
    { path_id := some experimentId, appJson := some config }

/-- Set a key in an object's fields, preserving its position (JS object
spread `{...obj, k: v}` semantics for unique keys). -/
def setField : List (String × JValue) → String → JValue → List (String × JValue)
  | [], k, v => [(k, v)]
  | (k', v') :: rest, k, v =>
    if k' == k then (k', v) :: rest else (k', v') :: setField rest k v

/-- JS `{...data, k: v}` where `data` may be `undefined`: spreading a
non-object contributes no string-keyed fields (the `startExperiment` /
`stopExperiment` paths only spread the fetched experiment object). -/
def jsSpreadSet (data : Option JValue) (k : String) (v : JValue) : JValue :=
  let fields :=
    match data with
    | some (.obj fs) => fs
    | _ => []
  .obj (setField fields k v)

/-- `MCPClient.startExperiment`: read the experiment's details, return
the failure unchanged if the read failed, else update with
`status: 'active'`. -/
def startExperiment (envVars : String → Option String) (mcpConfig : JValue)
    (remote : Nat → FetchOutcome) (st : Nat × List MCPCall)
    (experimentId : String) : MCPResponse × (Nat × List MCPCall) :=
  let (currentDetails, st1) :=
    getExperimentDetails envVars mcpConfig remote st experimentId
  if !currentDetails.success then (currentDetails, st1)
  else
    updateExperiment envVars mcpConfig remote st1 experimentId
      (jsSpreadSet currentDetails.data "status" (.str "active"))

/-- `MCPClient.stopExperiment`: like `startExperiment` but the update
sets `status: 'experiment_stopped'`. -/
def stopExperiment (envVars : String → Option String) (mcpConfig : JValue)
    (remote : Nat → FetchOutcome) (st : Nat × List MCPCall)
    (experimentId : String) : MCPResponse × (Nat × List MCPCall) :=
  let (currentDetails, st1) :=
    getExperimentDetails envVars mcpConfig remote st experimentId
  if !currentDetails.success then (currentDetails, st1)
  else
    updateExperiment envVars mcpConfig remote st1 experimentId
      (jsSpreadSet currentDetails.data "status" (.str "experiment_stopped"))

/-- `MCPClient.listExperiments`. -/
def listExperiments (envVars : String → Option String) (mcpConfig : JValue)
    (remote : Nat → FetchOutcome) (st : Nat × List MCPCall) :
    MCPResponse × (Nat × List MCPCall) :=
  callMCPTool envVars mcpConfig remote st
    "mcp_statsig-local_Get_List_of_Experiments"
    { path_id := none, appJson := none }

end TechVault.MCP

namespace TechVault.Preflight

open TechVault.ContractSchema TechVault.EnvValidator TechVault.MCP

/-!
Model of `preflight-validator.ts` (`PreflightValidator`). Filesystem,
`JSON.parse`, process environment, the statsig remote and `execSync`
are oracles; each of the six checks appends to the shared error and
warning lists exactly as the source does, and overall `success` is
computed at the end from the error list alone.
-/

/-- The per-check pass flags. -/
structure PreflightChecks where
  contract : Bool
  environment : Bool
  codeChanges : Bool
  statsigConnectivity : Bool
  branchState : Bool
  deployment : Bool

/-- `PreflightResult`. -/
structure PreflightResult where
  success : Bool
  errors : List String
  warnings : List String
  checks : PreflightChecks

/-- Environment of one preflight run: every external effect as an
oracle. `mcpConfig`/`remote` feed the global `mcpClient`; `exec` maps a
shell command to its stdout or its thrown error message. -/
structure PreflightEnv where
  projectRoot : String
  fs : FS
  parseJson : String → Except String JValue
  sysVars : String → Option String
  cwd : String
  mcpConfig : JValue
  remote : Nat → FetchOutcome
  exec : String → Except String String

/-- Path of the contract file for a key:
`join(projectRoot, 'contract', key + '.json')`. -/
def contractPath (env : PreflightEnv) (experimentKey : String) : String :=
  env.projectRoot ++ "/contract/" ++ experimentKey ++ ".json"

/-- `PreflightValidator.validateContract` (check 1). -/
def contractCheck (env : PreflightEnv) (experimentKey : String)
    (r : PreflightResult) : PreflightResult :=
  match env.fs (contractPath env experimentKey) with
  | none =>
    { r with errors := r.errors ++
        ["Contract file not found: contract/" ++ experimentKey ++ ".json"] }
  | some content =>
    match env.parseJson content with
    | .error msg =>
      { r with errors := r.errors ++ ["Contract validation failed: " ++ msg] }
    | .ok contractData =>
      match validateContract contractData with
      | .error msg =>
        { r with errors := r.errors ++ ["Contract validation failed: " ++ msg] }
      | .ok validatedContract =>
        let r1 :=
          if validatedContract.variants.length < 2 then
            { r with errors := r.errors ++ ["Contract must have at least 2 variants"] }
          else r
        let r2 :=
          if validatedContract.codeChanges.length = 0 then
            { r1 with errors := r1.errors ++
                ["Contract must specify code changes to implement"] }
          else r1
        if r2.errors.isEmpty then
          { r2 with checks := { r2.checks with contract := true } }
        else r2

/-- `PreflightValidator.validateEnvironment` (check 2). -/
def environmentCheck (env : PreflightEnv) (r : PreflightResult) : PreflightResult :=
  let envResult := validateEnvironment env.fs { vars := env.sysVars, cwd := env.cwd }
  let r1 :=
    if !envResult.success then { r with errors := r.errors ++ envResult.errors }
    else r
  let r2 :=
    if 0 < envResult.warnings.length then
      { r1 with warnings := r1.warnings ++ envResult.warnings }
    else r1
  if envResult.success then
    { r2 with checks := { r2.checks with environment := true } }
  else r2

/-- The seven detection patterns of `validateCodeChanges` (they match
`CodeGenerator.isTargetFunction`'s pattern list, but are searched with
`includes` anywhere in the file). -/
def functionPatterns (functionName : String) : List String :=
  ["function " ++ functionName ++ "(",
   "const " ++ functionName ++ " = (",
   "const " ++ functionName ++ " = function",
   "export function " ++ functionName ++ "(",
   "export const " ++ functionName ++ " = (",
   "export default function " ++ functionName ++ "(",
   "export default const " ++ functionName ++ " = ("]

/-- Per-entry loop body of `validateCodeChanges`. -/
def codeChangeCheckStep (env : PreflightEnv) (r : PreflightResult)
    (codeChange : CodeChange) : PreflightResult :=
  match env.fs (joinPath env.projectRoot codeChange.file) with
  | none =>
    { r with errors := r.errors ++ ["Target file not found: " ++ codeChange.file] }
  | some fileContent =>
    if (functionPatterns codeChange.function).any
        (fun pattern => jsIncludes fileContent pattern) then r
    else
      { r with errors := r.errors ++
          ["Function/component '" ++ codeChange.function ++ "' not found in " ++
            codeChange.file] }

/-- `PreflightValidator.validateCodeChanges` (check 3): re-reads and
re-validates the contract, then checks each target file. -/
def codeChangesCheck (env : PreflightEnv) (experimentKey : String)
    (r : PreflightResult) : PreflightResult :=
  match fsRead env.fs (contractPath env experimentKey) with
  | .error msg =>
    { r with errors := r.errors ++ ["Code changes validation failed: " ++ msg] }
  | .ok content =>
    match env.parseJson content with
    | .error msg =>
      { r with errors := r.errors ++ ["Code changes validation failed: " ++ msg] }
    | .ok contractData =>
      match validateContract contractData with
      | .error msg =>
        { r with errors := r.errors ++ ["Code changes validation failed: " ++ msg] }
      | .ok contract =>
        let r1 := contract.codeChanges.foldl (codeChangeCheckStep env) r
        if r1.errors.isEmpty then
          { r1 with checks := { r1.checks with codeChanges := true } }
        else r1

/-- `PreflightValidator.validateStatsigConnectivity` (check 4): the
global `mcpClient.listExperiments()` call. -/
def statsigCheck (env : PreflightEnv) (r : PreflightResult) : PreflightResult :=
  let testResult := (listExperiments env.sysVars env.mcpConfig env.remote (0, [])).1
  if testResult.success then
    { r with checks := { r.checks with statsigConnectivity := true } }
  else
    { r with errors := r.errors ++
        ["Statsig connectivity failed: " ++ testResult.error.getD "undefined"] }

/-- `PreflightValidator.validateBranchState` (check 5): the first two
git commands abort the check on a throw; the remote-sync commands only
degrade to a warning. -/
def branchStateCheck (env : PreflightEnv) (experimentKey : String)
    (r : PreflightResult) : PreflightResult :=
  let branchName := "exp/" ++ experimentKey
  match env.exec "git rev-parse --abbrev-ref HEAD" with
  | .error msg =>
    { r with errors := r.errors ++ ["Branch state validation failed: " ++ msg] }
  | .ok currentBranchOut =>
    let currentBranch := jsTrim currentBranchOut
    let r1 :=
      if currentBranch ≠ branchName then
        { r with warnings := r.warnings ++
            ["Not on experiment branch. Current: " ++ currentBranch ++
              ", Expected: " ++ branchName] }
      else r
    match env.exec "git status --porcelain" with
    | .error msg =>
      { r1 with errors := r1.errors ++ ["Branch state validation failed: " ++ msg] }
    | .ok statusOut =>
      let r2 :=
        if jsTrim statusOut ≠ "" then
          { r1 with warnings := r1.warnings ++ ["Branch has uncommitted changes"] }
        else r1
      let r3 :=
        match env.exec "git fetch origin" with
        | .error _ =>
          { r2 with warnings := r2.warnings ++ ["Could not check remote branch status"] }
        | .ok _ =>
          match env.exec ("git rev-parse " ++ branchName) with
          | .error _ =>
            { r2 with warnings := r2.warnings ++
                ["Could not check remote branch status"] }
          | .ok localOut =>
            match env.exec ("git rev-parse origin/" ++ branchName) with
            | .error _ =>
              { r2 with warnings := r2.warnings ++
                  ["Could not check remote branch status"] }
            | .ok remoteOut =>
              if jsTrim localOut ≠ jsTrim remoteOut then
                { r2 with warnings := r2.warnings ++
                    ["Branch is not up to date with remote"] }
              else r2
      { r3 with checks := { r3.checks with branchState := true } }

/-- `PreflightValidator.validateDeploymentReadiness` (check 6). -/
def deploymentCheck (env : PreflightEnv) (r : PreflightResult) : PreflightResult :=
  match env.exec "npm run build" with
  | .error msg =>
    { r with errors := r.errors ++ ["Deployment readiness failed: " ++ msg] }
  | .ok _ =>
    match env.exec "npm run lint" with
    | .error msg =>
      { r with errors := r.errors ++ ["Deployment readiness failed: " ++ msg] }
    | .ok _ => { r with checks := { r.checks with deployment := true } }

/-- `PreflightValidator.validateExperiment`: run all six checks in
order, then set `success` from the error list. -/
def validateExperiment (env : PreflightEnv) (experimentKey : String) :
    PreflightResult :=
  let r0 : PreflightResult :=
    { success := true, errors := [], warnings := [],
      checks := { contract := false, environment := false, codeChanges := false,
                  statsigConnectivity := false, branchState := false,
                  deployment := false } }
  let r1 := contractCheck env experimentKey r0
  let r2 := environmentCheck env r1
  let r3 := codeChangesCheck env experimentKey r2
  let r4 := statsigCheck env r3
  let r5 := branchStateCheck env experimentKey r4
  let r6 := deploymentCheck env r5
  { r6 with success := r6.errors.isEmpty }

end TechVault.Preflight

namespace TechVault

open TechVault.CodeGen TechVault.ContractSchema TechVault.MCP TechVault.Preflight

/-- Finalization step of `validateExperiment`: success is the error
list's emptiness, whatever the six checks produced. -/
theorem preflight_finalize_iff (r : PreflightResult) :
    ({ r with success := r.errors.isEmpty } : PreflightResult).success = true ↔
    ({ r with success := r.errors.isEmpty } : PreflightResult).errors = [] := by
  cases r with
  | mk success errors warnings checks => cases errors <;> simp

/-- C5: for every environment/filesystem/git oracle and every
experiment key, the preflight result's `success` is `true` exactly when
its aggregated `errors` list is empty; the warnings list plays no role
in `success`. -/
theorem c5_preflight_success_iff_errors_empty (env : PreflightEnv) (key : String) :
    (Preflight.validateExperiment env key).success = true ↔
    (Preflight.validateExperiment env key).errors = [] := by
  unfold Preflight.validateExperiment
  exact preflight_finalize_iff _

/-- A path never equals itself with the `.rollback` suffix appended. -/
theorem ne_rollback_path (path : String) : path ≠ path ++ ".rollback" := by
  intro h
  have hlen := congrArg String.length h
  simp [String.length_append] at hlen
  exact absurd hlen (by decide)

/-- C6: creating a rollback sidecar for a file's current content and
immediately restoring reproduces the file's exact content and deletes
the sidecar; restoring without a sidecar throws the
`No rollback file found` error (and returns no modified filesystem). -/
theorem c6_rollback_roundtrip (fs : FS) (path content : String) :
    (fs path = some content →
      ∃ fs2, restoreFromRollback (createRollback fs path content) path = .ok fs2 ∧
        fs2 path = some content ∧ fs2 (path ++ ".rollback") = none) ∧
    (fs (path ++ ".rollback") = none →
      restoreFromRollback fs path =
        .error ("No rollback file found: " ++ (path ++ ".rollback"))) := by
  constructor
  · intro _hcur
    refine ⟨fsDelete (fsWrite (createRollback fs path content) path content)
      (path ++ ".rollback"), ?_, ?_, ?_⟩
    · simp [restoreFromRollback, createRollback, fsWrite]
    · simp [fsDelete, fsWrite, ne_rollback_path path]
    · simp [fsDelete]
  · intro hnone
    simp [restoreFromRollback, hnone]

/-- C10: when the initial details read of `startExperiment` or
`stopExperiment` reports failure, both operations return that very
response with the call trace of the read alone — no update call is
issued, so the remote experiment is untouched. -/
theorem c10_failed_read_no_update (envVars : String → Option String)
    (mcpConfig : JValue) (remote : Nat → FetchOutcome)
    (st : Nat × List MCPCall) (experimentId : String)
    (h : (getExperimentDetails envVars mcpConfig remote st experimentId).1.success
      = false) :
    startExperiment envVars mcpConfig remote st experimentId =
      getExperimentDetails envVars mcpConfig remote st experimentId ∧
    stopExperiment envVars mcpConfig remote st experimentId =
      getExperimentDetails envVars mcpConfig remote st experimentId := by
  constructor
  · unfold startExperiment
    simp [h]
  · unfold stopExperiment
    simp [h]

/-- C10 witness: a concrete failed read (non-2xx response on the first
fetch) short-circuits both operations. -/
theorem c10_failed_read_no_update_witness :
    startExperiment (fun _ => some "console-k") (.obj [])
        (fun _ => .notOk 500 "Internal Server Error" "boom") (0, []) "exp1" =
      getExperimentDetails (fun _ => some "console-k") (.obj [])
        (fun _ => .notOk 500 "Internal Server Error" "boom") (0, []) "exp1" ∧
    stopExperiment (fun _ => some "console-k") (.obj [])
        (fun _ => .notOk 500 "Internal Server Error" "boom") (0, []) "exp1" =
      getExperimentDetails (fun _ => some "console-k") (.obj [])
        (fun _ => .notOk 500 "Internal Server Error" "boom") (0, []) "exp1" :=
  c10_failed_read_no_update (fun _ => some "console-k") (.obj [])
    (fun _ => .notOk 500 "Internal Server Error" "boom") (0, []) "exp1" rfl

end TechVault

namespace TechVault

open TechVault.CodeGen TechVault.ContractSchema TechVault.MCP TechVault.Vercel

/-- C6 witness: concrete round trip for `src/Button.tsx`, plus the
missing-sidecar error on the untouched filesystem. -/
theorem c6_rollback_roundtrip_witness :
    (∃ fs2,
      restoreFromRollback
        (createRollback (fun p => if p = "src/Button.tsx" then some "body" else none)
          "src/Button.tsx" "body") "src/Button.tsx" = .ok fs2 ∧
      fs2 "src/Button.tsx" = some "body" ∧
      fs2 ("src/Button.tsx" ++ ".rollback") = none) ∧
    restoreFromRollback (fun p => if p = "src/Button.tsx" then some "body" else none)
        "src/Button.tsx" =
      .error ("No rollback file found: " ++ ("src/Button.tsx" ++ ".rollback")) := by
  have h := c6_rollback_roundtrip
    (fun p => if p = "src/Button.tsx" then some "body" else none) "src/Button.tsx" "body"
  exact ⟨h.1 (by decide), h.2 (by decide)⟩

/-- The exact error thrown by `getAuthToken` when no credential is
available. -/
def authTokenErrorMsg : String :=
  "Statsig AUTH_TOKEN not found in MCP configuration or environment"

/-- `getAuthToken` fails with the AUTH_TOKEN message when the
environment variable is absent/empty and the MCP-config fallback is
absent/falsy. -/
theorem getAuthToken_missing (envVars : String → Option String) (mcpConfig : JValue)
    (hkey : (envVars "STATSIG_CONSOLE_API_KEY").getD "" = "")
    (htok : ((oGet (oGet (oGet (jGet mcpConfig "mcpServers") "statsig") "env")
        "AUTH_TOKEN").map jsTruthyJ).getD false = false) :
    getAuthToken envVars mcpConfig = .error authTokenErrorMsg := by
  unfold getAuthToken
  cases hv : envVars "STATSIG_CONSOLE_API_KEY" with
  | none =>
    cases ht : oGet (oGet (oGet (jGet mcpConfig "mcpServers") "statsig") "env")
        "AUTH_TOKEN" with
    | none => simp [authTokenErrorMsg]
    | some t =>
      rw [ht] at htok
      simp at htok
      simp [htok, authTokenErrorMsg]
  | some v =>
    rw [hv] at hkey
    simp at hkey
    subst hkey
    cases ht : oGet (oGet (oGet (jGet mcpConfig "mcpServers") "statsig") "env")
        "AUTH_TOKEN" with
    | none => simp [authTokenErrorMsg]
    | some t =>
      rw [ht] at htok
      simp at htok
      simp [htok, authTokenErrorMsg]

/-- C8 counterexample: with `STATSIG_CONSOLE_API_KEY` unset and an MCP
config carrying no `AUTH_TOKEN`, using the client fails with the
AUTH_TOKEN message — which does not name `STATSIG_CONSOLE_API_KEY`, so
the claimed named-variable error does not occur. -/
theorem c8_counterexample :
    (listExperiments (fun _ => none)
        (.obj [("mcpServers", .obj [("statsig", .obj [("command", .str "npx")])])])
        (fun _ => .ok .null) (0, [])).1.success = false ∧
    (listExperiments (fun _ => none)
        (.obj [("mcpServers", .obj [("statsig", .obj [("command", .str "npx")])])])
        (fun _ => .ok .null) (0, [])).1.error = some authTokenErrorMsg ∧
    chContains "STATSIG_CONSOLE_API_KEY".data authTokenErrorMsg.data = false := by
  refine ⟨rfl, rfl, by decide⟩

/-- C8 (amended): in every environment where the console-key variable
is unset (or empty) and the MCP config has no truthy `AUTH_TOKEN`,
using the client fails with the fixed AUTH_TOKEN error message (no
fetch is issued), and constructing the client over an unreadable MCP
config file throws the fixed configuration error. Neither message names
`STATSIG_CONSOLE_API_KEY`. -/
theorem c8_missing_key_fails_with_auth_token_error
    (envVars : String → Option String) (mcpConfig : JValue)
    (remote : Nat → FetchOutcome) (st : Nat × List MCPCall)
    (hkey : (envVars "STATSIG_CONSOLE_API_KEY").getD "" = "")
    (htok : ((oGet (oGet (oGet (jGet mcpConfig "mcpServers") "statsig") "env")
        "AUTH_TOKEN").map jsTruthyJ).getD false = false) :
    (listExperiments envVars mcpConfig remote st).1.success = false ∧
    (listExperiments envVars mcpConfig remote st).1.error = some authTokenErrorMsg ∧
    (listExperiments envVars mcpConfig remote st).2 = st ∧
    (∀ e : String, mkMCPClient (.error e) =
      .error "MCP configuration not found. Please ensure MCP is properly configured.") ∧
    chContains "STATSIG_CONSOLE_API_KEY".data authTokenErrorMsg.data = false := by
  have hauth := getAuthToken_missing envVars mcpConfig hkey htok
  unfold listExperiments callMCPTool
  rw [hauth]
  exact ⟨rfl, rfl, rfl, fun e => rfl, by decide⟩

/-- C8 witness: concrete instance of the amended statement. -/
theorem c8_missing_key_fails_witness :
    (listExperiments (fun _ => none) (.obj []) (fun _ => .ok .null) (0, [])).1.success
      = false ∧
    (listExperiments (fun _ => none) (.obj []) (fun _ => .ok .null) (0, [])).1.error
      = some authTokenErrorMsg ∧
    (listExperiments (fun _ => none) (.obj []) (fun _ => .ok .null) (0, [])).2
      = (0, []) ∧
    (∀ e : String, mkMCPClient (.error e) =
      .error "MCP configuration not found. Please ensure MCP is properly configured.") ∧
    chContains "STATSIG_CONSOLE_API_KEY".data authTokenErrorMsg.data = false :=
  c8_missing_key_fails_with_auth_token_error (fun _ => none) (.obj [])
    (fun _ => .ok .null) (0, []) rfl rfl

/-- The timeout failure result of `pollDeployment`. -/
def timeoutResult : VercelDeploymentResult :=
  { success := false, deployment := none,
    error := some "Deployment timeout - deployment did not complete within the specified time",
    url := none }

/-- For a deployment that reports `BUILDING` on every successful poll,
the polling loop always ends in the timeout result, at an elapsed time
in `[timeoutMs, timeoutMs + pollInterval)`. -/
theorem pollAux_building (fetchAt : Nat → PollFetch) (timeoutMs : Nat)
    (hB : ∀ n, ∃ dep, fetchAt n = .ok dep ∧ dep.state = "BUILDING") :
    ∀ (m elapsed n : Nat), timeoutMs - elapsed ≤ m →
      elapsed < timeoutMs + pollInterval →
      pollAux fetchAt timeoutMs n elapsed = (timeoutResult, (pollAux fetchAt timeoutMs n elapsed).2) ∧
      timeoutMs ≤ (pollAux fetchAt timeoutMs n elapsed).2 ∧
      (pollAux fetchAt timeoutMs n elapsed).2 < timeoutMs + pollInterval := by
  intro m
  induction m with
  | zero =>
    intro elapsed n hm hub
    have hge : timeoutMs ≤ elapsed := by omega
    rw [pollAux]
    simp [Nat.not_lt.mpr hge, timeoutResult]
    omega
  | succ m ih =>
    intro elapsed n hm hub
    by_cases hlt : elapsed < timeoutMs
    · obtain ⟨dep, hfetch, hstate⟩ := hB n
      rw [pollAux]
      simp only [hlt, dif_pos, hfetch, hstate]
      have : ¬("BUILDING" = "READY") := by decide
      simp only [this, if_false]
      have : ¬("BUILDING" = "ERROR" ∨ "BUILDING" = "CANCELED") := by decide
      simp only [this, if_false]
      exact ih (elapsed + pollInterval) (n + 1)
        (by simp [pollInterval] at hm ⊢; omega)
        (by simp [pollInterval] at hub ⊢; omega)
    · have hge : timeoutMs ≤ elapsed := by omega
      rw [pollAux]
      simp [Nat.not_lt.mpr hge, timeoutResult]
      omega

/-- C3: a deployment whose reported state on every successful poll is
`BUILDING` makes `pollDeployment` return the timeout failure, and the
loop stops at a wall-clock time in `[timeoutMs, timeoutMs + 5000)` —
within one poll interval past the timeout budget. -/
theorem c3_poll_timeout_liveness (fetchAt : Nat → PollFetch) (timeoutMs : Nat)
    (hB : ∀ n, ∃ dep, fetchAt n = .ok dep ∧ dep.state = "BUILDING") :
    (pollDeployment fetchAt timeoutMs).1.success = false ∧
    (pollDeployment fetchAt timeoutMs).1.error =
      some "Deployment timeout - deployment did not complete within the specified time" ∧
    timeoutMs ≤ (pollDeployment fetchAt timeoutMs).2 ∧
    (pollDeployment fetchAt timeoutMs).2 < timeoutMs + pollInterval := by
  have h := pollAux_building fetchAt timeoutMs hB timeoutMs 0 0
    (by omega) (by simp [pollInterval])
  unfold pollDeployment
  refine ⟨?_, ?_, h.2.1, h.2.2⟩
  · rw [h.1]
    rfl
  · rw [h.1]
    rfl

/-- C3 witness: a 12-second timeout with an always-`BUILDING`
deployment times out at 15 seconds of wall-clock time. -/
theorem c3_poll_timeout_liveness_witness :
    (pollDeployment (fun _ => .ok ⟨"dep1", "u.vercel.app", "BUILDING", 0, none, none⟩)
        12000).1.success = false ∧
    (pollDeployment (fun _ => .ok ⟨"dep1", "u.vercel.app", "BUILDING", 0, none, none⟩)
        12000).1.error =
      some "Deployment timeout - deployment did not complete within the specified time" ∧
    12000 ≤ (pollDeployment (fun _ => .ok ⟨"dep1", "u.vercel.app", "BUILDING", 0, none, none⟩)
        12000).2 ∧
    (pollDeployment (fun _ => .ok ⟨"dep1", "u.vercel.app", "BUILDING", 0, none, none⟩)
        12000).2 < 12000 + pollInterval :=
  c3_poll_timeout_liveness
    (fun _ => .ok ⟨"dep1", "u.vercel.app", "BUILDING", 0, none, none⟩) 12000
    (fun _ => ⟨⟨"dep1", "u.vercel.app", "BUILDING", 0, none, none⟩, rfl, rfl⟩)

end TechVault

namespace TechVault

open TechVault.ContractSchema TechVault.MCP

/-- Setting a field always makes it present with the new value. -/
theorem setField_lookup (fs : List (String × JValue)) (k : String) (v : JValue) :
    jLookup (setField fs k v) k = some v := by
  induction fs with
  | nil => simp [setField, jLookup]
  | cons p rest ih =>
    obtain ⟨k', v'⟩ := p
    by_cases hk : k' == k
    · simp [setField, hk, jLookup, List.find?]
    · simp only [setField, hk, if_false, Bool.false_eq_true]
      simp only [jLookup, List.find?, hk] at ih ⊢
      exact ih

/-- The spread-set object always carries the written `status` value. -/
theorem jsSpreadSet_get (data : Option JValue) (k : String) (v : JValue) :
    jGet (jsSpreadSet data k v) k = some v := by
  unfold jsSpreadSet jGet
  exact setField_lookup _ k v

/-- A successful `callMCPTool` response implies the auth token
resolution succeeded. -/
theorem callMCPTool_success_auth (envVars : String → Option String)
    (mcpConfig : JValue) (remote : Nat → FetchOutcome) (st : Nat × List MCPCall)
    (toolName : String) (params : MCPParams)
    (h : (callMCPTool envVars mcpConfig remote st toolName params).1.success = true) :
    ∃ t, getAuthToken envVars mcpConfig = .ok t := by
  cases hauth : getAuthToken envVars mcpConfig with
  | ok t => exact ⟨t, rfl⟩
  | error msg =>
    unfold callMCPTool at h
    rw [hauth] at h
    simp at h

/-- C7 counterexample: with a configured key and a remote that answers
both calls, `stopExperiment` issues its update with
`status: 'experiment_stopped'` — not the claimed `'stopped'`. The
statuses carried by the issued calls' bodies are evaluated
concretely. -/
theorem c7_counterexample :
    ((stopExperiment
        (fun k => if k = "STATSIG_CONSOLE_API_KEY" then some "console-key" else none)
        (.obj [])
        (fun _ => .ok (.obj [("id", .str "exp1"), ("status", .str "active")]))
        (0, []) "exp1").2.2.map
      (fun c => c.body.bind (fun b => jGet b "status"))) =
      [none, some (.str "experiment_stopped")] ∧
    ((stopExperiment
        (fun k => if k = "STATSIG_CONSOLE_API_KEY" then some "console-key" else none)
        (.obj [])
        (fun _ => .ok (.obj [("id", .str "exp1"), ("status", .str "active")]))
        (0, []) "exp1").2.2.map
      (fun c => c.body.bind (fun b => jGet b "status"))) ≠
      [none, some (.str "stopped")] := by
  have h1 : ((stopExperiment
      (fun k => if k = "STATSIG_CONSOLE_API_KEY" then some "console-key" else none)
      (.obj [])
      (fun _ => .ok (.obj [("id", .str "exp1"), ("status", .str "active")]))
      (0, []) "exp1").2.2.map
        (fun c => c.body.bind (fun b => jGet b "status"))) =
      [none, some (.str "experiment_stopped")] := rfl
  refine ⟨h1, ?_⟩
  rw [h1]
  simp

/-- A `callMCPTool` invocation whose auth token and endpoint resolve,
on a POST tool, appends exactly one call to the trace: a POST to that
endpoint whose body is the `'application/json'` parameter (or the
serialized params). -/
theorem callMCPTool_post_trace (envVars : String → Option String)
    (mcpConfig : JValue) (remote : Nat → FetchOutcome) (n : Nat)
    (calls : List MCPCall) (toolName : String) (params : MCPParams)
    (t : JValue) (endpoint : String)
    (hauth : getAuthToken envVars mcpConfig = .ok t)
    (hep : mapToolToEndpoint toolName params = .ok endpoint)
    (hmethod : getHttpMethod toolName = "POST") :
    (callMCPTool envVars mcpConfig remote (n, calls) toolName params).2.2 =
      calls ++ [MCPCall.mk toolName endpoint "POST"
        (some (params.appJson.getD (paramsAsJson params)))] := by
  unfold callMCPTool
  rw [hauth, hep]
  have hne : ("POST" ≠ "GET") = True := by simp
  simp only [hmethod, hne, if_true, eq_self_iff_true]
  cases hr : remote n <;>
    simp [Option.getD] <;>
    cases params.appJson <;> rfl

/-- C7 (amended): whenever the initial read succeeds, `stopExperiment`
issues exactly one further call — a POST to the update endpoint whose
body is the read-back experiment with `status` set to
`'experiment_stopped'` — and `startExperiment` does the same with
`status` set to `'active'`. -/
theorem c7_stop_updates_experiment_stopped (envVars : String → Option String)
    (mcpConfig : JValue) (remote : Nat → FetchOutcome)
    (st : Nat × List MCPCall) (experimentId : String)
    (h : (getExperimentDetails envVars mcpConfig remote st experimentId).1.success
      = true) :
    (∃ c : MCPCall,
      (stopExperiment envVars mcpConfig remote st experimentId).2.2 =
        (getExperimentDetails envVars mcpConfig remote st experimentId).2.2 ++ [c] ∧
      c.tool = "mcp_statsig-local_Update_Experiment_Entirely" ∧
      c.method = "POST" ∧
      c.body = some (jsSpreadSet
        (getExperimentDetails envVars mcpConfig remote st experimentId).1.data
        "status" (.str "experiment_stopped")) ∧
      c.body.bind (fun b => jGet b "status") = some (.str "experiment_stopped")) ∧
    (∃ c : MCPCall,
      (startExperiment envVars mcpConfig remote st experimentId).2.2 =
        (getExperimentDetails envVars mcpConfig remote st experimentId).2.2 ++ [c] ∧
      c.tool = "mcp_statsig-local_Update_Experiment_Entirely" ∧
      c.method = "POST" ∧
      c.body = some (jsSpreadSet
        (getExperimentDetails envVars mcpConfig remote st experimentId).1.data
        "status" (.str "active")) ∧
      c.body.bind (fun b => jGet b "status") = some (.str "active")) := by
  obtain ⟨t, hauth⟩ := callMCPTool_success_auth envVars mcpConfig remote st _ _ h
  rcases hge : getExperimentDetails envVars mcpConfig remote st experimentId
    with ⟨d, n1, calls1⟩
  rw [hge] at h
  simp only at h
  constructor
  · refine ⟨MCPCall.mk "mcp_statsig-local_Update_Experiment_Entirely"
      ("https://statsigapi.net/console/v1/experiments/" ++ experimentId) "POST"
      (some (jsSpreadSet d.data "status" (.str "experiment_stopped"))),
      ?_, rfl, rfl, by simp [hge], by simp [jsSpreadSet_get]⟩
    unfold stopExperiment
    rw [hge]
    simp only [h, Bool.not_true, Bool.false_eq_true, if_false]
    unfold updateExperiment
    rw [callMCPTool_post_trace envVars mcpConfig remote n1 calls1
      "mcp_statsig-local_Update_Experiment_Entirely"
      ⟨some experimentId, some (jsSpreadSet d.data "status" (.str "experiment_stopped"))⟩
      t ("https://statsigapi.net/console/v1/experiments/" ++ experimentId) hauth rfl
      (by decide)]
    simp
  · refine ⟨MCPCall.mk "mcp_statsig-local_Update_Experiment_Entirely"
      ("https://statsigapi.net/console/v1/experiments/" ++ experimentId) "POST"
      (some (jsSpreadSet d.data "status" (.str "active"))),
      ?_, rfl, rfl, by simp [hge], by simp [jsSpreadSet_get]⟩
    unfold startExperiment
    rw [hge]
    simp only [h, Bool.not_true, Bool.false_eq_true, if_false]
    unfold updateExperiment
    rw [callMCPTool_post_trace envVars mcpConfig remote n1 calls1
      "mcp_statsig-local_Update_Experiment_Entirely"
      ⟨some experimentId, some (jsSpreadSet d.data "status" (.str "active"))⟩
      t ("https://statsigapi.net/console/v1/experiments/" ++ experimentId) hauth rfl
      (by decide)]
    simp

end TechVault

namespace TechVault

open TechVault.ContractSchema TechVault.MCP

/-- C7 witness: concrete successful read followed by the update calls
with statuses `'experiment_stopped'` / `'active'`. -/
theorem c7_stop_updates_experiment_stopped_witness :
    (∃ c : MCPCall,
      (stopExperiment
        (fun k => if k = "STATSIG_CONSOLE_API_KEY" then some "console-key" else none)
        (.obj [])
        (fun _ => .ok (.obj [("id", .str "exp1"), ("status", .str "active")]))
        (0, []) "exp1").2.2 =
        (getExperimentDetails
          (fun k => if k = "STATSIG_CONSOLE_API_KEY" then some "console-key" else none)
          (.obj [])
          (fun _ => .ok (.obj [("id", .str "exp1"), ("status", .str "active")]))
          (0, []) "exp1").2.2 ++ [c] ∧
      c.tool = "mcp_statsig-local_Update_Experiment_Entirely" ∧
      c.method = "POST" ∧
      c.body = some (jsSpreadSet
        (getExperimentDetails
          (fun k => if k = "STATSIG_CONSOLE_API_KEY" then some "console-key" else none)
          (.obj [])
          (fun _ => .ok (.obj [("id", .str "exp1"), ("status", .str "active")]))
          (0, []) "exp1").1.data
        "status" (.str "experiment_stopped")) ∧
      c.body.bind (fun b => jGet b "status") = some (.str "experiment_stopped")) ∧
    (∃ c : MCPCall,
      (startExperiment
        (fun k => if k = "STATSIG_CONSOLE_API_KEY" then some "console-key" else none)
        (.obj [])
        (fun _ => .ok (.obj [("id", .str "exp1"), ("status", .str "active")]))
        (0, []) "exp1").2.2 =
        (getExperimentDetails
          (fun k => if k = "STATSIG_CONSOLE_API_KEY" then some "console-key" else none)
          (.obj [])
          (fun _ => .ok (.obj [("id", .str "exp1"), ("status", .str "active")]))
          (0, []) "exp1").2.2 ++ [c] ∧
      c.tool = "mcp_statsig-local_Update_Experiment_Entirely" ∧
      c.method = "POST" ∧
      c.body = some (jsSpreadSet
        (getExperimentDetails
          (fun k => if k = "STATSIG_CONSOLE_API_KEY" then some "console-key" else none)
          (.obj [])
          (fun _ => .ok (.obj [("id", .str "exp1"), ("status", .str "active")]))
          (0, []) "exp1").1.data
        "status" (.str "active")) ∧
      c.body.bind (fun b => jGet b "status") = some (.str "active")) :=
  c7_stop_updates_experiment_stopped
    (fun k => if k = "STATSIG_CONSOLE_API_KEY" then some "console-key" else none)
    (.obj [])
    (fun _ => .ok (.obj [("id", .str "exp1"), ("status", .str "active")]))
    (0, []) "exp1" rfl

end TechVault

namespace TechVault

open TechVault.CodeGen TechVault.ContractSchema

/-- An in-range `getD` is a member of the list. -/
theorem getD_mem_of_lt {α : Type} (l : List α) (i : Nat) (d : α)
    (h : i < l.length) : l.getD i d ∈ l := by
  induction l generalizing i with
  | nil => simp at h
  | cons x xs ih =>
    cases i with
    | zero => simp [List.getD]
    | succ j =>
      have := ih j (by simpa using h)
      simp [List.getD] at this ⊢
      right
      exact this

/-- When no line of the scanned file matches the target function, the
scanning loop walks straight through the file (never splicing) and ends
in the not-found throw, given fuel for one pass. -/
theorem genRun_nomatch (content functionName experimentKey parameterName : String) :
    ∀ (fuel : Nat) (s : GenState),
      (∀ l ∈ s.lines, isTargetFunction l functionName = false) →
      s.inTargetFunction = false → s.foundFunction = false →
      s.lines.length - s.i < fuel →
      genRun content functionName experimentKey parameterName fuel s =
        .err ("Function/component '" ++ functionName ++ "' not found in file") := by
  intro fuel
  induction fuel with
  | zero =>
    intro s _ _ _ hfuel
    omega
  | succ fuel ih =>
    intro s hno hin hfound hfuel
    by_cases hi : s.i < s.lines.length
    · have hline : s.lines.getD s.i "" ∈ s.lines := getD_mem_of_lt _ _ _ hi
      have hmatch := hno _ hline
      have hmatch' : isTargetFunction (s.lines[s.i]?.getD "") functionName = false := by
        simpa [List.getD] using hmatch
      have hstep : genStep content functionName experimentKey parameterName s =
          { s with modifiedLines := s.modifiedLines ++ [s.lines.getD s.i ""],
                   i := s.i + 1 } := by
        unfold genStep
        simp [hmatch', hin, List.getD]
      simp only [genRun, hi, if_true]
      rw [hstep]
      exact ih _ (by simpa using hno) (by simp [hin]) (by simp [hfound]) (by simp; omega)
    · simp [genRun, hi, hfound]

/-- C2: applying a code change to a file whose content matches none of
the recognized declaration patterns for the requested function yields a
failed `CodeModificationResult` whose single error reports the
function/component as not found, and the filesystem is returned
unchanged (fuel for one pass over the file suffices). -/
theorem c2_target_not_found_no_write (fuel : Nat) (fs : FS) (root : String)
    (cc : CodeChange) (contract : ExperimentContract) (content : String)
    (hread : fs (joinPath root cc.file) = some content)
    (hnomatch : ∀ l ∈ jsSplitNl content, isTargetFunction l cc.function = false)
    (hfuel : (jsSplitNl content).length < fuel) :
    applyCodeChange fuel fs root cc contract =
      some ({ success := false, file := cc.file, changes := [],
              errors := ["Function/component '" ++ cc.function ++
                "' not found in file"] }, fs) := by
  have hgen : generateModifiedCode fuel content cc.function contract.experimentKey
      cc.parameterUsage =
      .err ("Function/component '" ++ cc.function ++ "' not found in file") := by
    unfold generateModifiedCode
    exact genRun_nomatch content cc.function contract.experimentKey cc.parameterUsage
      fuel _ (by simpa using hnomatch) rfl rfl (by simpa using hfuel)
  have h1 : fsRead fs (joinPath root cc.file) = .ok content := by
    unfold fsRead
    rw [hread]
  simp only [applyCodeChange, h1, hgen]

/-- C2 witness: a two-line file with no declaration of `Button`. -/
theorem c2_target_not_found_no_write_witness :
    applyCodeChange 5
      (fun p => if p = "proj/src/Box.tsx" then some "let a = 1;\nlet b = 2;" else none)
      "proj"
      ⟨"src/Box.tsx", "Button", "getExperiment", "color", "before", none⟩
      ⟨"btn", "Exp", none, none,
        [("control", ⟨"Control", none, [], 50⟩), ("treatment", ⟨"Treatment", none, [], 50⟩)],
        [⟨"src/Box.tsx", "Button", "getExperiment", "color", "before", none⟩],
        [], 100, [], [], ⟨"exp/btn", "main", "main"⟩, ⟨"vercel", none, true, 300000⟩,
        ⟨"user_id", "development", false, none⟩, ⟨none, [], none, none⟩⟩ =
      some ({ success := false, file := "src/Box.tsx", changes := [],
              errors := ["Function/component '" ++ "Button" ++
                "' not found in file"] },
        (fun p => if p = "proj/src/Box.tsx" then some "let a = 1;\nlet b = 2;" else none)) :=
  c2_target_not_found_no_write 5
    (fun p => if p = "proj/src/Box.tsx" then some "let a = 1;\nlet b = 2;" else none)
    "proj"
    ⟨"src/Box.tsx", "Button", "getExperiment", "color", "before", none⟩
    ⟨"btn", "Exp", none, none,
      [("control", ⟨"Control", none, [], 50⟩), ("treatment", ⟨"Treatment", none, [], 50⟩)],
      [⟨"src/Box.tsx", "Button", "getExperiment", "color", "before", none⟩],
      [], 100, [], [], ⟨"exp/btn", "main", "main"⟩, ⟨"vercel", none, true, 300000⟩,
      ⟨"user_id", "development", false, none⟩, ⟨none, [], none, none⟩⟩
    "let a = 1;\nlet b = 2;" rfl (by decide) (by decide)

end TechVault

namespace TechVault

open TechVault.CodeGen TechVault.ContractSchema TechVault.FastGen

/-- Every result produced by `applyCodeChange` carries the entry's
file path. -/
theorem applyCodeChange_file (fuel : Nat) (fs : FS) (root : String)
    (c : CodeChange) (contract : ExperimentContract)
    (r : CodeModificationResult) (fs1 : FS)
    (h : applyCodeChange fuel fs root c contract = some (r, fs1)) :
    r.file = c.file := by
  simp only [applyCodeChange] at h
  split at h
  · simp only [Option.some.injEq, Prod.mk.injEq] at h
    rw [← h.1]
  · split at h
    · cases h
    · simp only [Option.some.injEq, Prod.mk.injEq] at h
      rw [← h.1]
    · split at h
      · simp only [Option.some.injEq, Prod.mk.injEq] at h
        rw [← h.1]
      · simp only [Option.some.injEq, Prod.mk.injEq] at h
        rw [← h.1]

/-- `applyCodeChangesAux` returns one result per entry, in order (the
file fields correspond positionally). -/
theorem applyCodeChangesAux_files (fuel : Nat) (root : String)
    (contract : ExperimentContract) :
    ∀ (ccs : List CodeChange) (fs : FS) (results : List CodeModificationResult)
      (fs' : FS),
      applyCodeChangesAux fuel fs root contract ccs = some (results, fs') →
      results.map (·.file) = ccs.map (·.file) := by
  intro ccs
  induction ccs with
  | nil =>
    intro fs results fs' h
    simp only [applyCodeChangesAux, Option.some.injEq, Prod.mk.injEq] at h
    rw [← h.1]
    rfl
  | cons c rest ih =>
    intro fs results fs' h
    unfold applyCodeChangesAux at h
    cases hc : applyCodeChange fuel fs root c contract with
    | none =>
      rw [hc] at h
      simp at h
    | some p =>
      obtain ⟨r, fs1⟩ := p
      rw [hc] at h
      simp only [] at h
      cases hrest : applyCodeChangesAux fuel fs1 root contract rest with
      | none =>
        rw [hrest] at h
        simp at h
      | some q =>
        obtain ⟨rs, fs2⟩ := q
        rw [hrest] at h
        simp only [Option.some.injEq, Prod.mk.injEq] at h
        rw [← h.1]
        simp only [List.map]
        rw [applyCodeChange_file fuel fs root c contract r fs1 hc, ih fs1 rs fs2 hrest]

/-- Every result produced by the fast variant's per-entry step carries
the entry's file path. -/
theorem fastApplyCodeChange_file (fs : FS) (root : String) (c : CodeChange)
    (contract : ExperimentContract) :
    (fastApplyCodeChange fs root c contract).1.file = c.file := by
  simp only [fastApplyCodeChange]
  split
  · rfl
  · split <;> rfl

/-- The fast variant's loop returns one result per entry, in order. -/
theorem fastApplyCodeChangesAux_files (root : String)
    (contract : ExperimentContract) :
    ∀ (ccs : List CodeChange) (fs : FS),
      (fastApplyCodeChangesAux fs root contract ccs).1.map (·.file) =
        ccs.map (·.file) := by
  intro ccs
  induction ccs with
  | nil => intro fs; rfl
  | cons c rest ih =>
    intro fs
    have hfile := fastApplyCodeChange_file fs root c contract
    rcases hfc : fastApplyCodeChange fs root c contract with ⟨r, fs1⟩
    rw [hfc] at hfile
    simp only at hfile
    simp only [fastApplyCodeChangesAux, hfc]
    rcases hrest : fastApplyCodeChangesAux fs1 root contract rest with ⟨rs, fs2⟩
    have := ih fs1
    rw [hrest] at this
    simp only at this
    simp only [List.map, hfile, this]

/-- C9: both patcher variants return exactly one
`CodeModificationResult` per `codeChanges` entry, in contract order
(shown by the positional correspondence of the `file` fields), so an
individual failure never suppresses the remaining entries' results. -/
theorem c9_one_result_per_entry (fuel : Nat) (fs : FS) (root : String)
    (contract : ExperimentContract) :
    (∀ (results : List CodeModificationResult) (fs' : FS),
      applyCodeChanges fuel fs root contract = some (results, fs') →
      results.map (·.file) = contract.codeChanges.map (·.file)) ∧
    (fastApplyCodeChanges fs root contract).1.map (·.file) =
      contract.codeChanges.map (·.file) := by
  constructor
  · intro results fs' h
    exact applyCodeChangesAux_files fuel root contract contract.codeChanges fs
      results fs' h
  · exact fastApplyCodeChangesAux_files root contract contract.codeChanges fs

/-- C9 witness: a two-entry contract over an empty filesystem — both
entries fail with read errors, yet each still reports its own result,
in order, for both variants. -/
theorem c9_one_result_per_entry_witness :
    List.map (fun r => r.file)
      ([{ success := false, file := "a.tsx", changes := [],
          errors := ["ENOENT: no such file or directory, open 'p/a.tsx'"] },
        { success := false, file := "b.tsx", changes := [],
          errors := ["ENOENT: no such file or directory, open 'p/b.tsx'"] }] :
        List CodeModificationResult) =
      List.map (fun c => c.file)
        ([⟨"a.tsx", "A", "getExperiment", "x", "before", none⟩,
          ⟨"b.tsx", "B", "getExperiment", "y", "before", none⟩] : List CodeChange) ∧
    (fastApplyCodeChanges (fun _ => none) "p"
      ⟨"btn", "Exp", none, none,
        [("control", ⟨"Control", none, [], 50⟩), ("treatment", ⟨"Treatment", none, [], 50⟩)],
        [⟨"a.tsx", "A", "getExperiment", "x", "before", none⟩,
         ⟨"b.tsx", "B", "getExperiment", "y", "before", none⟩],
        [], 100, [], [], ⟨"exp/btn", "main", "main"⟩, ⟨"vercel", none, true, 300000⟩,
        ⟨"user_id", "development", false, none⟩, ⟨none, [], none, none⟩⟩).1.map
        (fun r => r.file) =
      List.map (fun c => c.file)
        ([⟨"a.tsx", "A", "getExperiment", "x", "before", none⟩,
          ⟨"b.tsx", "B", "getExperiment", "y", "before", none⟩] : List CodeChange) :=
  ⟨(c9_one_result_per_entry 1 (fun _ => none) "p"
      ⟨"btn", "Exp", none, none,
        [("control", ⟨"Control", none, [], 50⟩), ("treatment", ⟨"Treatment", none, [], 50⟩)],
        [⟨"a.tsx", "A", "getExperiment", "x", "before", none⟩,
         ⟨"b.tsx", "B", "getExperiment", "y", "before", none⟩],
        [], 100, [], [], ⟨"exp/btn", "main", "main"⟩, ⟨"vercel", none, true, 300000⟩,
        ⟨"user_id", "development", false, none⟩, ⟨none, [], none, none⟩⟩).1
      [{ success := false, file := "a.tsx", changes := [],
         errors := ["ENOENT: no such file or directory, open 'p/a.tsx'"] },
       { success := false, file := "b.tsx", changes := [],
         errors := ["ENOENT: no such file or directory, open 'p/b.tsx'"] }]
      (fun _ => none) rfl,
   (c9_one_result_per_entry 1 (fun _ => none) "p"
      ⟨"btn", "Exp", none, none,
        [("control", ⟨"Control", none, [], 50⟩), ("treatment", ⟨"Treatment", none, [], 50⟩)],
        [⟨"a.tsx", "A", "getExperiment", "x", "before", none⟩,
         ⟨"b.tsx", "B", "getExperiment", "y", "before", none⟩],
        [], 100, [], [], ⟨"exp/btn", "main", "main"⟩, ⟨"vercel", none, true, 300000⟩,
        ⟨"user_id", "development", false, none⟩, ⟨none, [], none, none⟩⟩).2⟩

end TechVault


namespace TechVault

/-- A prefix stays a prefix after appending on the right. -/
theorem chStarts_append_of (p : List Char) :
    ∀ s t, chStarts p s = true → chStarts p (s ++ t) = true := by
  induction p with
  | nil => intro s t _; rfl
  | cons c cs ih =>
    intro s t h
    cases s with
    | nil => simp [chStarts] at h
    | cons x xs =>
      simp only [chStarts, Bool.and_eq_true] at h ⊢
      exact ⟨h.1, ih xs t h.2⟩

/-- Every list is prefixed by itself. -/
theorem chStarts_self_append (p t : List Char) : chStarts p (p ++ t) = true := by
  induction p with
  | nil => rfl
  | cons c cs ih => simp [chStarts, ih]

/-- A prefix occurrence is an occurrence. -/
theorem chContains_of_starts (p s : List Char) (h : chStarts p s = true) :
    chContains p s = true := by
  cases s with
  | nil => exact h
  | cons c cs => simp [chContains, h]

/-- Occurrences survive appending on the right. -/
theorem chContains_append_right (p : List Char) :
    ∀ s t, chContains p s = true → chContains p (s ++ t) = true := by
  intro s
  induction s with
  | nil =>
    intro t h
    cases p with
    | nil => cases t <;> simp [chContains, chStarts]
    | cons c cs => simp [chContains, chStarts] at h
  | cons c cs ih =>
    intro t h
    simp only [chContains, Bool.or_eq_true] at h ⊢
    rcases h with h | h
    · exact Or.inl (chStarts_append_of p _ t h)
    · exact Or.inr (ih t h)

/-- Occurrences survive appending on the left. -/
theorem chContains_append_left (p : List Char) :
    ∀ t s, chContains p s = true → chContains p (t ++ s) = true := by
  intro t
  induction t with
  | nil => intro s h; exact h
  | cons c ts ih =>
    intro s h
    have h2 := ih s h
    show chContains p (c :: (ts ++ s)) = true
    rw [show chContains p (c :: (ts ++ s)) =
      (chStarts p (c :: (ts ++ s)) || chContains p (ts ++ s)) from rfl, h2,
      Bool.or_true]

/-- An occurrence in any member propagates into the `join`. -/
theorem mem_jsJoin_contains (p : List Char) (sep : String) :
    ∀ (lines : List String) (x : String), x ∈ lines →
      chContains p x.data = true → chContains p (jsJoin sep lines).data = true := by
  intro lines
  induction lines with
  | nil => intro x hx; simp at hx
  | cons a rest ih =>
    intro x hx h
    cases rest with
    | nil =>
      simp at hx
      subst hx
      exact h
    | cons b bs =>
      rcases List.mem_cons.mp hx with hxa | hxm
      · subst hxa
        show chContains p (x ++ sep ++ jsJoin sep (b :: bs)).data = true
        rw [String.data_append, String.data_append, List.append_assoc]
        exact chContains_append_right p _ _ h
      · show chContains p (a ++ sep ++ jsJoin sep (b :: bs)).data = true
        rw [String.data_append, String.data_append, List.append_assoc]
        exact chContains_append_left p _ _
          (chContains_append_left p _ _ (ih x hxm h))

end TechVault

namespace TechVault.ContractSchema

/-- A parser result never fails with an empty issue list. -/
def errNonempty {α : Type} (r : ZRes α) : Prop :=
  ∀ l, r = Except.error l → l ≠ []

theorem zip2_errNonempty {α β : Type} {x : ZRes α} {y : ZRes β}
    (hx : errNonempty x) (hy : errNonempty y) : errNonempty (zip2 x y) := by
  intro l h
  cases x with
  | ok a =>
    cases y with
    | ok b => simp [zip2] at h
    | error e2 =>
      simp only [zip2] at h
      cases h
      exact hy _ rfl
  | error e1 =>
    cases y with
    | ok b =>
      simp only [zip2] at h
      cases h
      exact hx _ rfl
    | error e2 =>
      simp only [zip2] at h
      cases h
      have := hx e1 rfl
      simp [this]

theorem zMap_errNonempty {α β : Type} (f : α → β) {x : ZRes α}
    (hx : errNonempty x) : errNonempty (zMap f x) := by
  intro l h
  cases x with
  | ok a => simp [zMap] at h
  | error e =>
    simp only [zMap] at h
    cases h
    exact hx _ rfl

theorem zAt_errNonempty {α : Type} (k : String) {x : ZRes α}
    (hx : errNonempty x) : errNonempty (zAt k x) := by
  intro l h
  cases x with
  | ok a => simp [zAt] at h
  | error e =>
    simp only [zAt] at h
    cases h
    have := hx e rfl
    simp [this]

theorem pReqString_errNonempty (msg : String) (o : Option JValue) :
    errNonempty (pReqString msg o) := by
  intro l h
  unfold pReqString at h
  repeat' split at h
  all_goals (cases h <;> simp)

theorem pOptString_errNonempty (o : Option JValue) :
    errNonempty (pOptString o) := by
  intro l h
  unfold pOptString at h
  repeat' split at h
  all_goals (cases h <;> simp)

theorem pDefRecordAny_errNonempty (o : Option JValue) :
    errNonempty (pDefRecordAny o) := by
  intro l h
  unfold pDefRecordAny at h
  repeat' split at h
  all_goals (cases h <;> simp)

theorem pDefNumMinMax_errNonempty (lo hi d : Int) (o : Option JValue) :
    errNonempty (pDefNumMinMax lo hi d o) := by
  intro l h
  unfold pDefNumMinMax pNumMinMax at h
  repeat' split at h
  all_goals (cases h <;> simp)

theorem parseVariant_errNonempty (v : JValue) : errNonempty (parseVariant v) := by
  cases v with
  | obj fs =>
    exact zMap_errNonempty _ (zip2_errNonempty (zip2_errNonempty (zip2_errNonempty
      (zAt_errNonempty _ (pReqString_errNonempty _ _))
      (zAt_errNonempty _ (pOptString_errNonempty _)))
      (zAt_errNonempty _ (pDefRecordAny_errNonempty _)))
      (zAt_errNonempty _ (pDefNumMinMax_errNonempty _ _ _ _)))
  | null => intro l h; simp only [parseVariant] at h; cases h; simp
  | bool b => intro l h; simp only [parseVariant] at h; cases h; simp
  | num n => intro l h; simp only [parseVariant] at h; cases h; simp
  | str s => intro l h; simp only [parseVariant] at h; cases h; simp
  | arr xs => intro l h; simp only [parseVariant] at h; cases h; simp

theorem parseVariantEntries_errNonempty :
    ∀ vs, errNonempty (parseVariantEntries vs) := by
  intro vs
  induction vs with
  | nil => intro l h; simp [parseVariantEntries] at h
  | cons p rest ih =>
    obtain ⟨k, v⟩ := p
    exact zMap_errNonempty _ (zip2_errNonempty
      (zAt_errNonempty _ (parseVariant_errNonempty v)) ih)

/-- Unfolding of a failed `zAt`. -/
theorem zAt_error_spec {α : Type} (k : String) (x : ZRes α) (e : List ZIssue)
    (h : zAt k x = Except.error e) :
    ∃ l, x = Except.error l ∧
      e = l.map (fun i => { i with path := k :: i.path }) := by
  cases x with
  | ok a => simp [zAt] at h
  | error l =>
    simp only [zAt] at h
    cases h
    exact ⟨l, rfl, rfl⟩

/-- Failures that carry at least one issue filed under `variants`. -/
def hasVariantsIssue {α : Type} (r : ZRes α) : Prop :=
  ∃ l, r = Except.error l ∧ ∃ i ∈ l, i.path.head? = some "variants"

theorem zip2_hvi_left {α β : Type} {x : ZRes α} (y : ZRes β)
    (h : hasVariantsIssue x) : hasVariantsIssue (zip2 x y) := by
  obtain ⟨l, hx, i, hi, hh⟩ := h
  rw [hx]
  cases y with
  | ok b => exact ⟨l, rfl, i, hi, hh⟩
  | error e2 => exact ⟨l ++ e2, rfl, i, List.mem_append_left _ hi, hh⟩

theorem zip2_hvi_right {α β : Type} (x : ZRes α) {y : ZRes β}
    (h : hasVariantsIssue y) : hasVariantsIssue (zip2 x y) := by
  obtain ⟨l, hy, i, hi, hh⟩ := h
  rw [hy]
  cases x with
  | ok a => exact ⟨l, rfl, i, hi, hh⟩
  | error e1 => exact ⟨e1 ++ l, rfl, i, List.mem_append_right _ hi, hh⟩

theorem zMap_hvi {α β : Type} (f : α → β) {x : ZRes α}
    (h : hasVariantsIssue x) : hasVariantsIssue (zMap f x) := by
  obtain ⟨l, hx, i, hi, hh⟩ := h
  rw [hx]
  exact ⟨l, rfl, i, hi, hh⟩

/-- A `variants` record with fewer than two entries always fails with
an issue filed under `variants`. -/
theorem parseVariantsField_variants_issue (fields : List (String × JValue))
    (vs : List (String × JValue))
    (hlook : jLookup fields "variants" = some (.obj vs))
    (hlen : vs.length < 2) :
    hasVariantsIssue (parseVariantsField fields) := by
  cases hz : zAt "variants" (parseVariantEntries vs) with
  | ok parsed =>
    have hnot : ¬(2 ≤ vs.length) := by omega
    have heq : parseVariantsField fields = Except.error [⟨["variants"],
        "At least 2 variants are required (control and treatment)"⟩] := by
      unfold parseVariantsField
      rw [hlook]
      simp [hz, hnot]
    exact ⟨_, heq, ⟨["variants"],
      "At least 2 variants are required (control and treatment)"⟩,
      List.mem_singleton.mpr rfl, rfl⟩
  | error e =>
    have heq : parseVariantsField fields = Except.error e := by
      unfold parseVariantsField
      rw [hlook]
      simp [hz]
    obtain ⟨l, hl, he⟩ := zAt_error_spec _ _ _ hz
    have hne : l ≠ [] := parseVariantEntries_errNonempty vs l hl
    cases l with
    | nil => exact absurd rfl hne
    | cons i0 rest =>
      refine ⟨e, heq, { i0 with path := "variants" :: i0.path }, ?_, rfl⟩
      rw [he]
      exact List.mem_map_of_mem _ (List.mem_cons_self i0 rest)

/-- The variants issue survives the whole-contract parse. -/
theorem parseContract_hvi (fields : List (String × JValue))
    (h : hasVariantsIssue (parseVariantsField fields)) :
    hasVariantsIssue (parseContract (.obj fields)) := by
  unfold parseContract
  apply zMap_hvi
  apply zip2_hvi_left
  apply zip2_hvi_left
  apply zip2_hvi_left
  apply zip2_hvi_left
  apply zip2_hvi_left
  apply zip2_hvi_left
  apply zip2_hvi_left
  apply zip2_hvi_left
  apply zip2_hvi_left
  exact zip2_hvi_right _ h

/-- C4: an input contract object whose `variants` mapping has fewer
than two entries (all other fields arbitrary) always makes
`validateContract` throw — it never returns a contract — and the thrown
message contains the text `variants`. -/
theorem c4_fewer_than_two_variants_rejected (fields : List (String × JValue))
    (vs : List (String × JValue))
    (hlook : jLookup fields "variants" = some (.obj vs))
    (hlen : vs.length < 2) :
    ∃ msg, validateContract (.obj fields) = .error msg ∧
      chContains "variants".data msg.data = true := by
  obtain ⟨l, hpc, i, hi, hh⟩ :=
    parseContract_hvi fields (parseVariantsField_variants_issue fields vs hlook hlen)
  unfold validateContract
  rw [hpc]
  refine ⟨_, rfl, ?_⟩
  rw [String.data_append]
  apply chContains_append_left
  refine mem_jsJoin_contains "variants".data "\n"
    (l.map (fun j => jsJoin "." j.path ++ ": " ++ j.message))
    (jsJoin "." i.path ++ ": " ++ i.message)
    (List.mem_map_of_mem (fun j => jsJoin "." j.path ++ ": " ++ j.message) hi) ?_
  cases hp : i.path with
  | nil => rw [hp] at hh; simp at hh
  | cons p0 ps =>
    rw [hp] at hh
    simp at hh
    subst hh
    cases ps with
    | nil =>
      simp only [jsJoin, String.data_append, List.append_assoc]
      exact chContains_of_starts _ _ (chStarts_self_append _ _)
    | cons p1 ps' =>
      simp only [jsJoin, String.data_append, List.append_assoc]
      exact chContains_of_starts _ _ (chStarts_self_append _ _)

/-- C4 witness: a one-variant contract object is rejected with a
message mentioning `variants`. -/
theorem c4_fewer_than_two_variants_rejected_witness :
    ∃ msg, validateContract
        (.obj [("variants", .obj [("control", .obj [("name", .str "Control")])])]) =
      .error msg ∧ chContains "variants".data msg.data = true :=
  c4_fewer_than_two_variants_rejected
    [("variants", .obj [("control", .obj [("name", .str "Control")])])]
    [("control", .obj [("name", .str "Control")])] rfl (by decide)

end TechVault.ContractSchema

namespace TechVault.CodeGen

/-!
C1: the spec's scenario file. `generateModifiedCode` splices the import
lines into `lines` while the `for` loop is running; every element from
the splice index on shifts forward by two, so the declaration line is
re-visited (and re-matched, since `hasStatsigImport` keeps checking the
unchanged `originalContent`) on every second iteration, forever. The
states are periodic: `stateA k` just before the k-th re-match,
`midB k` right after it.
-/

/-- The scenario file's declaration line. -/
def btnDecl : String := "export const Button = (props) => \x7b"

/-- The scenario `Button.tsx` content: the declaration, a body line and
the closing brace; no experiment-access import yet. -/
def btnContent : String := btnDecl ++ "\n  return null;\n\x7d"

/-- Its lines. -/
def btnTail : List String := [btnDecl, "  return null;", "\x7d"]

/-- `k` copies of the spliced-in pair (import line, blank line). -/
def blocks : Nat → List String
  | 0 => []
  | k + 1 => statsigImportLine :: "" :: blocks k

/-- The snippet generated for the matched declaration line. -/
def btnSnippet : String := generateExperimentFunction btnDecl "Button" "btn" "color"

/-- Output accumulated after `k` match cycles. -/
def outBlocks : Nat → List String
  | 0 => []
  | k + 1 => outBlocks k ++ [btnSnippet, ""]

/-- Loop state just before the `k`-th re-match of the declaration. -/
def stateA (k : Nat) : GenState :=
  { i := 2 * k, lines := blocks k ++ btnTail, modifiedLines := outBlocks k,
    inTargetFunction := false, functionDepth := 0,
    foundFunction := decide (0 < k) }

/-- Loop state right after the `k`-th re-match. -/
def midB (k : Nat) : GenState :=
  { i := 2 * k + 1, lines := blocks (k + 1) ++ btnTail,
    modifiedLines := outBlocks k ++ [btnSnippet],
    inTargetFunction := true, functionDepth := 0, foundFunction := true }

theorem getD_cons_succ {α : Type} (a : α) (l : List α) (n : Nat) (d : α) :
    (a :: l).getD (n + 1) d = l.getD n d := rfl

theorem blocks_length (k : Nat) : (blocks k).length = 2 * k := by
  induction k with
  | zero => rfl
  | succ k ih => simp [blocks, ih]; omega

theorem blocks_getD_decl : ∀ k, (blocks k ++ btnTail).getD (2 * k) "" = btnDecl := by
  intro k
  induction k with
  | zero => rfl
  | succ k ih =>
    show (statsigImportLine :: "" :: (blocks k ++ btnTail)).getD (2 * (k + 1)) "" = btnDecl
    rw [show 2 * (k + 1) = 2 * k + 1 + 1 by omega]
    rw [getD_cons_succ, getD_cons_succ]
    exact ih

theorem blocks_getD_blank :
    ∀ k, (blocks (k + 1) ++ btnTail).getD (2 * k + 1) "" = "" := by
  intro k
  induction k with
  | zero => rfl
  | succ k ih =>
    show (statsigImportLine :: "" :: (blocks (k + 1) ++ btnTail)).getD
      (2 * (k + 1) + 1) "" = ""
    rw [show 2 * (k + 1) + 1 = 2 * k + 1 + 1 + 1 by omega]
    rw [getD_cons_succ, getD_cons_succ]
    exact ih

theorem findImportAux_blocks : ∀ k i, findImportAux (blocks k ++ btnTail) i = 0 := by
  intro k
  induction k with
  | zero =>
    intro i
    have h1 : (jsStartsWith (jsTrim btnDecl) "import " &&
      !(jsIncludes (jsTrim btnDecl) "from '../lib/statsigClient'")) = false := by decide
    have h2 : (jsStartsWith (jsTrim "  return null;") "import " &&
      !(jsIncludes (jsTrim "  return null;") "from '../lib/statsigClient'")) = false := by
      decide
    have h3 : (jsStartsWith (jsTrim "\x7d") "import " &&
      !(jsIncludes (jsTrim "\x7d") "from '../lib/statsigClient'")) = false := by decide
    simp [btnTail, findImportAux, h1, h2, h3]
  | succ k ih =>
    intro i
    have hIS : (jsStartsWith (jsTrim statsigImportLine) "import " &&
      !(jsIncludes (jsTrim statsigImportLine) "from '../lib/statsigClient'")) = false := by
      decide
    have hE : (jsStartsWith (jsTrim "") "import " &&
      !(jsIncludes (jsTrim "") "from '../lib/statsigClient'")) = false := by decide
    show findImportAux (statsigImportLine :: "" :: (blocks k ++ btnTail)) i = 0
    rw [findImportAux, if_neg (by simp [hIS]), findImportAux, if_neg (by simp [hE])]
    exact ih (i + 2)

theorem getElem?_cons_succ {α : Type} (a : α) (l : List α) (n : Nat) :
    (a :: l)[n + 1]? = l[n]? := by simp

theorem jsInsertAt_zero {α : Type} (l : List α) (x : α) :
    jsInsertAt l 0 x = x :: l := by cases l <;> rfl

theorem blocks_getElem_decl : ∀ k, (blocks k ++ btnTail)[2 * k]? = some btnDecl := by
  intro k
  induction k with
  | zero => rfl
  | succ k ih =>
    show (statsigImportLine :: "" :: (blocks k ++ btnTail))[2 * (k + 1)]? = some btnDecl
    rw [show 2 * (k + 1) = 2 * k + 1 + 1 by omega]
    rw [getElem?_cons_succ, getElem?_cons_succ]
    exact ih

theorem blocks_getElem_blank :
    ∀ k, (blocks (k + 1) ++ btnTail)[2 * k + 1]? = some "" := by
  intro k
  induction k with
  | zero => rfl
  | succ k ih =>
    show (statsigImportLine :: "" :: (blocks (k + 1) ++ btnTail))[2 * (k + 1) + 1]? =
      some ""
    rw [show 2 * (k + 1) + 1 = 2 * k + 1 + 1 + 1 by omega]
    rw [getElem?_cons_succ, getElem?_cons_succ]
    exact ih

theorem stepA (k : Nat) :
    genStep btnContent "Button" "btn" "color" (stateA k) = midB k := by
  have hget := blocks_getElem_decl k
  have htarget : isTargetFunction btnDecl "Button" = true := by decide
  have himp : hasStatsigImport btnContent = false := by decide
  have hlines : jsInsertAt (jsInsertAt (blocks k ++ btnTail) 0 statsigImportLine) 1 "" =
      blocks (k + 1) ++ btnTail := by
    rw [jsInsertAt_zero]
    show statsigImportLine :: jsInsertAt (blocks k ++ btnTail) 0 "" =
      blocks (k + 1) ++ btnTail
    rw [jsInsertAt_zero]
    simp [blocks]
  unfold genStep
  simp [stateA, hget, htarget, himp, findImportInsertIndex, findImportAux_blocks k 0,
    hlines, midB, btnSnippet]

theorem stepB (k : Nat) :
    genStep btnContent "Button" "btn" "color" (midB k) = stateA (k + 1) := by
  have hget := blocks_getElem_blank k
  have htarget : isTargetFunction "" "Button" = false := by decide
  have hbr1 : jsIncludes "" "\x7b" = false := by decide
  have hbr2 : jsIncludes "" "\x7d" = false := by decide
  unfold genStep
  simp [midB, hget, htarget, hbr1, hbr2, stateA, outBlocks]
  omega

theorem genRun_periodic :
    ∀ fuel k,
      genRun btnContent "Button" "btn" "color" fuel (stateA k) = .outOfFuel ∧
      genRun btnContent "Button" "btn" "color" fuel (midB k) = .outOfFuel := by
  intro fuel
  induction fuel with
  | zero => intro k; exact ⟨rfl, rfl⟩
  | succ fuel ih =>
    intro k
    constructor
    · have hlt : (stateA k).i < (stateA k).lines.length := by
        simp [stateA, blocks_length, btnTail]
      simp only [genRun, hlt, if_true, stepA k]
      exact (ih k).2
    · have hlt : (midB k).i < (midB k).lines.length := by
        simp [midB, blocks_length, btnTail]
        omega
      simp only [genRun, hlt, if_true, stepB k]
      exact (ih (k + 1)).1

/-- C1 (the code bug): on a source file that contains
`export const Button = (props) => {` and no experiment-access import —
exactly the spec's scenario — `generateModifiedCode` never terminates,
whatever iteration budget it is given: the mid-loop `splice` of the two
spliced lines keeps shifting the declaration line into the loop's path,
so no patched file is ever produced (the claimed single-insertion
output never happens). -/
theorem c1_generateModifiedCode_never_terminates (fuel : Nat) :
    generateModifiedCode fuel btnContent "Button" "btn" "color" = .outOfFuel := by
  have hsplit : jsSplitNl btnContent = btnTail := by decide
  have hinit : (GenState.mk 0 (jsSplitNl btnContent) [] false 0 false) = stateA 0 := by
    rw [hsplit]
    rfl
  unfold generateModifiedCode
  rw [hinit]
  exact (genRun_periodic fuel 0).1

end TechVault.CodeGen
